import Mathlib

/-!
Verification of the audio-sim coupled modal-synthesis engine.

Shallow embedding of the core subsystems of the repository:
* `TopologyEngine` (src/au-plugin/src/dsp_core/TopologyEngine.cpp):
  coupling-matrix generation, row normalization, per-tick coupling update.
* `modal_node` (src/au-plugin/src/esp32_port/modal_node.c):
  4-mode complex oscillator dynamics.
* `ModalVoice` / `VoiceAllocator` (src/au-plugin/src/dsp_core/):
  polyphonic voice pool, allocation and stealing.
* `audio_synth` (src/au-plugin/src/esp32_port/audio_synth.c):
  per-sample renderer.
* `protocol_crc32` and the chunked configuration transfer
  (src/esp32/firmware/main/network/protocol.c, main.c, config/hub_controller.c).

Real-valued quantities that the C code stores as `float` are modelled as exact
rationals where only field values and comparisons matter, and as real/complex
numbers where transcendental functions (`exp`, `cos`, `sin`, `sqrt`) enter.
-/

namespace AudioSim

/-! ## TopologyEngine: coupling-matrix generation

The C object owns an `N x N` matrix of floats.  We model the matrix as a
function `ℕ → ℕ → ℚ` (entries outside the `N x N` window are never read) and
each generator as a fold mirroring the C loops.  `rand()` draws are supplied
as inputs: `rewire i j` stands for `rand()/RAND_MAX` drawn at pair `(i,j)` and
`target i j` for the `rand()` value whose remainder mod `N` picks a rewiring
target. -/

abbrev Mat := ℕ → ℕ → ℚ

/-- Write value `v` at entry `(i, j)`. -/
def mset (m : Mat) (i j : ℕ) (v : ℚ) : Mat :=
  fun a b => if a = i ∧ b = j then v else m a b

/-- `TopologyEngine::clearMatrix`: all entries zero. -/
def zeroMat : Mat := fun _ _ => 0

/-- Random draws consumed by the generators, indexed by the loop position at
which the C code would call `rand()`. -/
structure RandSource where
  rewire : ℕ → ℕ → ℚ
  target : ℕ → ℕ → ℕ

/-- `TopologyEngine::generateRing`: each voice connects to its two ring
neighbors.  `(i - 1 + N) % N` on `uint32_t` equals `(i + N - 1) % N`. -/
def generateRing (n : ℕ) : Mat :=
  (List.range n).foldl
    (fun m i => mset (mset m i ((i + n - 1) % n) 1) i ((i + 1) % n) 1)
    zeroMat

/-- One pair-step of `TopologyEngine::generateSmallWorld`'s double loop:
if the edge `(i,j)` (with `i < j`) exists, rewire it with probability
`rewire_prob`: delete both directions, then add a symmetric edge from `i` to a
random target if the target differs from `i`. -/
def smallWorldStep (n : ℕ) (rewire_prob : ℚ) (rs : RandSource) (m : Mat)
    (i j : ℕ) : Mat :=
  if m i j > 0 then
    if rs.rewire i j < rewire_prob then
      let m1 := mset (mset m i j 0) j i 0
      let new_target := rs.target i j % n
      if new_target ≠ i then mset (mset m1 i new_target 1) new_target i 1
      else m1
    else m
  else m

/-- `TopologyEngine::generateSmallWorld`: ring plus probabilistic rewiring of
each upper-triangle edge. -/
def generateSmallWorld (n : ℕ) (rewire_prob : ℚ) (rs : RandSource) : Mat :=
  (List.range n).foldl
    (fun m i =>
      (List.range n).foldl
        (fun m' j => if i < j then smallWorldStep n rewire_prob rs m' i j else m')
        m)
    (generateRing n)

/-- `TopologyEngine::generateClustered`: contiguous clusters of `cluster_size`
fully connected with weight 1; consecutive clusters' first members linked with
weight 1/2 in both directions. -/
def generateClustered (n cluster_size : ℕ) : Mat :=
  let num_clusters := (n + cluster_size - 1) / cluster_size
  (List.range num_clusters).foldl
    (fun m cluster_idx =>
      let cluster_start := cluster_idx * cluster_size
      let cluster_end := min (cluster_start + cluster_size) n
      let m1 :=
        (List.range' cluster_start (cluster_end - cluster_start)).foldl
          (fun mm i =>
            (List.range' cluster_start (cluster_end - cluster_start)).foldl
              (fun mmm j => if i ≠ j then mset mmm i j 1 else mmm)
              mm)
          m
      if cluster_idx < num_clusters - 1 then
        let next_cluster_start := (cluster_idx + 1) * cluster_size
        if next_cluster_start < n then
          mset (mset m1 cluster_start next_cluster_start (1/2))
            next_cluster_start cluster_start (1/2)
        else m1
      else m1)
    zeroMat

/-- `TopologyEngine::generateHubSpoke`: hub symmetric to every other voice. -/
def generateHubSpoke (n hub_idx : ℕ) : Mat :=
  let hub := if hub_idx ≥ n then 0 else hub_idx
  (List.range n).foldl
    (fun m i => if i ≠ hub then mset (mset m hub i 1) i hub 1 else m)
    zeroMat

/-- `TopologyEngine::generateRandom`: each unordered pair gets a symmetric
edge independently with probability `connection_prob`. -/
def generateRandom (n : ℕ) (connection_prob : ℚ) (rs : RandSource) : Mat :=
  (List.range n).foldl
    (fun m i =>
      (List.range n).foldl
        (fun m' j =>
          if i < j then
            if rs.rewire i j < connection_prob then
              mset (mset m' i j 1) j i 1
            else m'
          else m')
        m)
    zeroMat

/-- `TopologyEngine::generateComplete`: all off-diagonal entries 1. -/
def generateComplete (n : ℕ) : Mat :=
  (List.range n).foldl
    (fun m i =>
      (List.range n).foldl
        (fun m' j => if i ≠ j then mset m' i j 1 else m')
        m)
    zeroMat

/-- Row sum over the first `n` columns. -/
def rowSum (m : Mat) (n i : ℕ) : ℚ := ∑ j ∈ Finset.range n, m i j

/-- `TopologyEngine::normalizeMatrix`: divide each row of the `N x N` window
by its sum when the sum is positive. -/
def normalizeMatrix (m : Mat) (n : ℕ) : Mat :=
  fun i j =>
    if i < n ∧ j < n ∧ rowSum m n i > 0 then m i j / rowSum m n i else m i j

/-- The seven topology families of `TopologyType`. -/
inductive TopologyType
  | ring | smallWorld | clustered | hubSpoke | random | complete | none
deriving DecidableEq

/-- `TopologyEngine::generateTopology`: clear, build the family-specific
edges (`Clustered` uses cluster size 4, `HubSpoke` uses hub 0), then
row-normalize. -/
def generateTopology (tt : TopologyType) (n : ℕ) (topology_param : ℚ)
    (rs : RandSource) : Mat :=
  let m :=
    match tt with
    | .ring => generateRing n
    | .smallWorld => generateSmallWorld n topology_param rs
    | .clustered => generateClustered n 4
    | .hubSpoke => generateHubSpoke n 0
    | .random => generateRandom n topology_param rs
    | .complete => generateComplete n
    | .none => zeroMat
  normalizeMatrix m n

/-! ### Row-stochasticity of generated topologies (C3) -/

/-- All entries of the matrix are non-negative. -/
def MatNonneg (m : Mat) : Prop := ∀ a b, 0 ≤ m a b

lemma foldl_preserve {α β : Type} {P : α → Prop} {f : α → β → α}
    (h : ∀ a b, P a → P (f a b)) :
    ∀ (l : List β) (a : α), P a → P (List.foldl f a l) := by
  intro l
  induction l with
  | nil => intro a ha; simpa using ha
  | cons x xs ih =>
    intro a ha
    simpa using ih (f a x) (h a x ha)

lemma mset_nonneg {m : Mat} {i j : ℕ} {v : ℚ} (hv : 0 ≤ v)
    (hm : MatNonneg m) : MatNonneg (mset m i j v) := by
  intro a b
  unfold mset
  split
  · exact hv
  · exact hm a b

lemma zeroMat_nonneg : MatNonneg zeroMat := by
  intro a b; simp [zeroMat]

lemma generateRing_nonneg (n : ℕ) : MatNonneg (generateRing n) := by
  unfold generateRing
  refine foldl_preserve (fun m i hm => ?_) _ _ zeroMat_nonneg
  exact mset_nonneg zero_le_one (mset_nonneg zero_le_one hm)

lemma smallWorldStep_nonneg (n : ℕ) (p : ℚ) (rs : RandSource) {m : Mat}
    (i j : ℕ) (hm : MatNonneg m) : MatNonneg (smallWorldStep n p rs m i j) := by
  unfold smallWorldStep
  dsimp only
  split
  · split
    · have h1 : MatNonneg (mset (mset m i j 0) j i 0) :=
        mset_nonneg le_rfl (mset_nonneg le_rfl hm)
      split
      · exact mset_nonneg zero_le_one (mset_nonneg zero_le_one h1)
      · exact h1
    · exact hm
  · exact hm

lemma generateSmallWorld_nonneg (n : ℕ) (p : ℚ) (rs : RandSource) :
    MatNonneg (generateSmallWorld n p rs) := by
  unfold generateSmallWorld
  refine foldl_preserve (fun m i hm => ?_) _ _ (generateRing_nonneg n)
  refine foldl_preserve (fun m' j hm' => ?_) _ _ hm
  split
  · exact smallWorldStep_nonneg n p rs _ _ hm'
  · exact hm'

lemma generateClustered_nonneg (n c : ℕ) : MatNonneg (generateClustered n c) := by
  unfold generateClustered
  dsimp only
  refine foldl_preserve (fun m cidx hm => ?_) _ _ zeroMat_nonneg
  dsimp only
  have h1 : MatNonneg ((List.range' (cidx * c) (min (cidx * c + c) n - cidx * c)).foldl
      (fun mm i => (List.range' (cidx * c) (min (cidx * c + c) n - cidx * c)).foldl
        (fun mmm j => if i ≠ j then mset mmm i j 1 else mmm) mm) m) := by
    refine foldl_preserve (fun mm i hmm => ?_) _ _ hm
    refine foldl_preserve (fun mmm j hmmm => ?_) _ _ hmm
    split
    · exact mset_nonneg zero_le_one hmmm
    · exact hmmm
  split
  · split
    · exact mset_nonneg (by norm_num) (mset_nonneg (by norm_num) h1)
    · exact h1
  · exact h1

lemma generateHubSpoke_nonneg (n h : ℕ) : MatNonneg (generateHubSpoke n h) := by
  unfold generateHubSpoke
  dsimp only
  generalize (if h ≥ n then 0 else h) = hub
  refine foldl_preserve (fun m i hm => ?_) _ _ zeroMat_nonneg
  split
  · exact mset_nonneg zero_le_one (mset_nonneg zero_le_one hm)
  · exact hm

lemma generateRandom_nonneg (n : ℕ) (p : ℚ) (rs : RandSource) :
    MatNonneg (generateRandom n p rs) := by
  unfold generateRandom
  refine foldl_preserve (fun m i hm => ?_) _ _ zeroMat_nonneg
  refine foldl_preserve (fun m' j hm' => ?_) _ _ hm
  split
  · split
    · exact mset_nonneg zero_le_one (mset_nonneg zero_le_one hm')
    · exact hm'
  · exact hm'

lemma generateComplete_nonneg (n : ℕ) : MatNonneg (generateComplete n) := by
  unfold generateComplete
  refine foldl_preserve (fun m i hm => ?_) _ _ zeroMat_nonneg
  refine foldl_preserve (fun m' j hm' => ?_) _ _ hm
  split
  · exact mset_nonneg zero_le_one hm'
  · exact hm'

lemma generateFamily_nonneg (tt : TopologyType) (n : ℕ) (p : ℚ)
    (rs : RandSource) :
    MatNonneg (match tt with
      | .ring => generateRing n
      | .smallWorld => generateSmallWorld n p rs
      | .clustered => generateClustered n 4
      | .hubSpoke => generateHubSpoke n 0
      | .random => generateRandom n p rs
      | .complete => generateComplete n
      | .none => zeroMat) := by
  cases tt with
  | ring => exact generateRing_nonneg n
  | smallWorld => exact generateSmallWorld_nonneg n p rs
  | clustered => exact generateClustered_nonneg n 4
  | hubSpoke => exact generateHubSpoke_nonneg n 0
  | random => exact generateRandom_nonneg n p rs
  | complete => exact generateComplete_nonneg n
  | none => exact zeroMat_nonneg

lemma rowSum_nonneg {m : Mat} (hm : MatNonneg m) (n i : ℕ) :
    0 ≤ rowSum m n i :=
  Finset.sum_nonneg (fun j _ => hm i j)

lemma normalizeMatrix_nonneg {m : Mat} (hm : MatNonneg m) (n : ℕ) :
    MatNonneg (normalizeMatrix m n) := by
  intro a b
  unfold normalizeMatrix
  split
  · next h => exact div_nonneg (hm a b) (le_of_lt h.2.2)
  · exact hm a b

lemma normalizeMatrix_rowSum {m : Mat} (hm : MatNonneg m) {n i : ℕ}
    (hi : i < n) :
    rowSum (normalizeMatrix m n) n i = 0 ∨ rowSum (normalizeMatrix m n) n i = 1 := by
  by_cases hpos : rowSum m n i > 0
  · right
    have hne : rowSum m n i ≠ 0 := ne_of_gt hpos
    have hcong : rowSum (normalizeMatrix m n) n i
        = ∑ j ∈ Finset.range n, m i j / rowSum m n i := by
      unfold rowSum normalizeMatrix
      refine Finset.sum_congr rfl (fun j hj => ?_)
      exact if_pos ⟨hi, Finset.mem_range.mp hj, hpos⟩
    rw [hcong, ← Finset.sum_div]
    exact div_self hne
  · left
    have hz : rowSum m n i = 0 :=
      le_antisymm (not_lt.mp hpos) (rowSum_nonneg hm n i)
    have : rowSum (normalizeMatrix m n) n i = rowSum m n i := by
      unfold rowSum normalizeMatrix
      refine Finset.sum_congr rfl (fun j hj => ?_)
      rw [if_neg]
      intro hcon
      exact hpos hcon.2.2
    rw [this, hz]

/-- C3: For every topology family, pool size, family parameter and random
draw, the matrix produced by `generateTopology` has only non-negative entries
and every row of the `N x N` window sums to 0 or to 1 (the rational model is
exact, hence in particular within the spec's 1e-6 tolerance). -/
theorem generateTopology_row_stochastic (tt : TopologyType) (n : ℕ)
    (topology_param : ℚ) (rs : RandSource) :
    (∀ i j, 0 ≤ generateTopology tt n topology_param rs i j) ∧
    (∀ i, i < n →
      rowSum (generateTopology tt n topology_param rs) n i = 0 ∨
      rowSum (generateTopology tt n topology_param rs) n i = 1) := by
  have hnn := generateFamily_nonneg tt n topology_param rs
  constructor
  · intro i j
    exact normalizeMatrix_nonneg hnn n i j
  · intro i hi
    exact normalizeMatrix_rowSum hnn hi

/-- Witness for C3: concrete instance, four voices in a ring, row 0. -/
theorem generateTopology_row_stochastic_witness :
    rowSum (generateTopology TopologyType.ring 4 (1/10)
      ⟨fun _ _ => 0, fun _ _ => 0⟩) 4 0 = 0 ∨
    rowSum (generateTopology TopologyType.ring 4 (1/10)
      ⟨fun _ _ => 0, fun _ _ => 0⟩) 4 0 = 1 :=
  (generateTopology_row_stochastic TopologyType.ring 4 (1/10)
    ⟨fun _ _ => 0, fun _ _ => 0⟩).2 0 (by decide)

/-! ## modal_node: 4-mode complex oscillator

From src/au-plugin/src/esp32_port/modal_node.c.  Complex amplitudes are
modelled as `ℂ`; mode parameters, which only feed the dynamics, as `ℝ`.
Envelope bookkeeping fields (`elapsed_ms`, `duration_ms`, `phase_hint`,
`strength`), which the code compares against each other and against 0, are
modelled as exact rationals.  Each call that may invoke `rand()` receives the
drawn values as an explicit argument. -/

/-- `CONTROL_DT = 1/CONTROL_RATE_HZ` with `CONTROL_RATE_HZ = 500`. -/
def CONTROL_DT : ℚ := 1 / 500

inductive NodePersonality
  | resonator
  | selfOscillator
deriving DecidableEq

structure ModeParams where
  omega : ℝ
  gamma : ℝ
  weight : ℝ
  active : Bool

structure ModeState where
  a : ℂ
  a_dot : ℂ
  params : ModeParams

structure ExcitationEnvelope where
  strength : ℚ
  duration_ms : ℚ
  elapsed_ms : ℚ
  phase_hint : ℚ
  active : Bool

structure ModalNode where
  node_id : ℕ
  personality : NodePersonality
  modes : Fin 4 → ModeState
  excitation : ExcitationEnvelope
  coupling_strength : ℚ
  carrier_freq_hz : ℚ
  audio_gain : ℚ
  step_count : ℕ
  running : Bool

structure PokeEvent where
  source_node_id : ℕ
  strength : ℚ
  phase_hint : ℚ
  mode_weights : Fin 4 → ℚ

/-- `midi_to_freq`: `440 * 2^((note - 69)/12)`. -/
noncomputable def midi_to_freq (note : ℕ) : ℝ :=
  440 * (2 : ℝ) ^ (((note : ℝ) - 69) / 12)

/-- `freq_to_omega`: `2π f`. -/
noncomputable def freq_to_omega (freq_hz : ℝ) : ℝ := 2 * Real.pi * freq_hz

/-- `cexp_i`: `cos θ + i sin θ = exp(iθ)`. -/
noncomputable def cexp_i (theta : ℝ) : ℂ := Complex.exp (Complex.I * theta)

/-- `modal_node_init`: zero the node, seed every mode's amplitude with small
noise `(rand()/RAND_MAX - 0.5) * 0.01` per component (the two uniform draws
for mode `k` are supplied as `noise k`), all modes inactive, default scalars,
not running, step counter 0. -/
def modal_node_init (node_id : ℕ) (personality : NodePersonality)
    (noise : Fin 4 → ℚ × ℚ) : ModalNode :=
  { node_id := node_id
    personality := personality
    modes := fun k =>
      { a := ⟨((((noise k).1 - 1/2) * (1/100) : ℚ) : ℝ),
              ((((noise k).2 - 1/2) * (1/100) : ℚ) : ℝ)⟩
        a_dot := 0
        params := { omega := 0, gamma := 0, weight := 0, active := false } }
    excitation :=
      { strength := 0, duration_ms := 0, elapsed_ms := 0, phase_hint := 0
        active := false }
    coupling_strength := 3/10
    carrier_freq_hz := 440
    audio_gain := 7/10
    step_count := 0
    running := false }

/-- `modal_node_set_mode`: bounds-checked configuration of one mode; marks it
active. -/
def modal_node_set_mode (node : ModalNode) (mode_idx : ℕ)
    (omega gamma weight : ℝ) : ModalNode :=
  if mode_idx ≥ 4 then node
  else
    { node with
      modes := fun k =>
        if (k : ℕ) = mode_idx then
          { node.modes k with
            params := { omega := omega, gamma := gamma, weight := weight
                        active := true } }
        else node.modes k }

/-- The Hann-labelled envelope shape used inside `modal_node_step`:
`0.5 * (1 - cos(π * t_norm))`. -/
noncomputable def hann_factor (t : ℝ) : ℝ := 1/2 * (1 - Real.cos (Real.pi * t))

/-- `envelope_hann` from audio_synth.c: the same half-cosine shape with the
out-of-range guards (`t < 0` and `t > 1` give 0). -/
noncomputable def envelope_hann (t : ℝ) : ℝ :=
  if t < 0 then 0
  else if t > 1 then 0
  else 1/2 * (1 - Real.cos (Real.pi * t))

/-- The envelope update at the top of `modal_node_step`: advance elapsed time
by `CONTROL_DT * 1000` ms and deactivate once `elapsed ≥ duration`. -/
def stepEnvelope (e : ExcitationEnvelope) : ExcitationEnvelope :=
  if e.active then
    { e with
      elapsed_ms := e.elapsed_ms + CONTROL_DT * 1000
      active := decide (e.elapsed_ms + CONTROL_DT * 1000 < e.duration_ms) }
  else e

/-- `modal_node_step`: no-op unless running; otherwise advance the excitation
envelope, then integrate every active mode with
`a ← a * exp(λ·dt) + forcing·dt`, `λ = -γ_eff + iω`, and bump the step
counter.  `rnd k` supplies the `random_phase()` draw that the code would make
for mode `k` when the phase hint is the `-1` sentinel. -/
noncomputable def modal_node_step (node : ModalNode) (rnd : Fin 4 → ℝ) :
    ModalNode :=
  if node.running = false then node
  else
    let exc := stepEnvelope node.excitation
    { node with
      excitation := exc
      step_count := node.step_count + 1
      modes := fun k =>
        let mode := node.modes k
        if mode.params.active = false then mode
        else
          let omega := mode.params.omega
          let gamma := mode.params.gamma
          let effective_gamma : ℝ :=
            if node.personality = NodePersonality.selfOscillator then
              -gamma + 3 * gamma * (Complex.abs mode.a * Complex.abs mode.a) / 1
            else gamma
          let excitation_term : ℂ :=
            if exc.active then
              let t_norm : ℝ := (exc.elapsed_ms : ℝ) / (exc.duration_ms : ℝ)
              let envelope := hann_factor t_norm
              let phase : ℝ :=
                if exc.phase_hint < 0 then rnd k else (exc.phase_hint : ℝ)
              let strength : ℝ := (exc.strength : ℝ) * mode.params.weight
              (strength * envelope : ℝ) * cexp_i phase
            else 0
          let lam : ℂ := (-effective_gamma : ℝ) + Complex.I * (omega : ℝ)
          { mode with
            a_dot := lam * mode.a + excitation_term
            a := mode.a * Complex.exp (lam * (CONTROL_DT : ℝ))
                 + excitation_term * (CONTROL_DT : ℝ) } }

/-- `modal_node_apply_poke`: refill the excitation envelope (10 ms default
duration) and give every active mode an immediate kick
`a += 0.1 * strength * weight * e^{i phase}`. -/
noncomputable def modal_node_apply_poke (node : ModalNode) (poke : PokeEvent)
    (rnd : Fin 4 → ℝ) : ModalNode :=
  { node with
    excitation :=
      { strength := poke.strength
        phase_hint := poke.phase_hint
        duration_ms := 10
        elapsed_ms := 0
        active := true }
    modes := fun k =>
      if (node.modes k).params.active = false then node.modes k
      else
        let weight := poke.mode_weights k
        let phase : ℝ :=
          if poke.phase_hint < 0 then rnd k else (poke.phase_hint : ℝ)
        let kick_strength : ℝ := (poke.strength : ℝ) * (weight : ℝ) * (1/10)
        { node.modes k with
          a := (node.modes k).a + (kick_strength : ℝ) * cexp_i phase } }

/-- `modal_node_get_amplitude`: weighted sum of mode magnitudes, divided by
the empirical constant 2 and clamped to at most 1. -/
noncomputable def modal_node_get_amplitude (node : ModalNode) : ℝ :=
  let total := ∑ k : Fin 4,
    if (node.modes k).params.active then
      Complex.abs ((node.modes k).a) * (node.modes k).params.weight
    else 0
  min (total / 2) 1

/-- `modal_node_start`. -/
def modal_node_start (node : ModalNode) : ModalNode :=
  { node with running := true }

/-- `modal_node_stop`. -/
def modal_node_stop (node : ModalNode) : ModalNode :=
  { node with running := false }

/-- `modal_node_reset`: zero every mode's amplitude and derivative, clear the
envelope, zero the step counter; the running flag is untouched. -/
def modal_node_reset (node : ModalNode) : ModalNode :=
  { node with
    modes := fun k => { node.modes k with a := 0, a_dot := 0 }
    excitation := { node.excitation with active := false }
    step_count := 0 }

/-! ### Step dynamics (C2), envelope shape (C6), init/reset (C10) -/

/-- Effective damping as the spec states it: `γ` for `Resonator`,
`−γ + 3γ·|a|²` for `SelfOscillator`. -/
noncomputable def gammaEff (node : ModalNode) (k : Fin 4) : ℝ :=
  if node.personality = NodePersonality.selfOscillator then
    -(node.modes k).params.gamma
      + 3 * (node.modes k).params.gamma * Complex.abs ((node.modes k).a) ^ 2
  else (node.modes k).params.gamma

/-- The forcing term `step()` applies to mode `k`: zero when the envelope
(after this tick's elapsed-time update) is inactive, otherwise
`strength · weight · envelope(t) · e^{i·phase}`. -/
noncomputable def stepForcing (node : ModalNode) (rnd : Fin 4 → ℝ)
    (k : Fin 4) : ℂ :=
  if (stepEnvelope node.excitation).active then
    ((((stepEnvelope node.excitation).strength : ℝ)
        * (node.modes k).params.weight
        * hann_factor (((stepEnvelope node.excitation).elapsed_ms : ℝ)
            / ((stepEnvelope node.excitation).duration_ms : ℝ)) : ℝ) : ℂ)
      * cexp_i (if (stepEnvelope node.excitation).phase_hint < 0 then rnd k
          else ((stepEnvelope node.excitation).phase_hint : ℝ))
  else 0

/-- The effective damping exactly as `modal_node_step` computes it
(with the explicit division by the squared saturation level 1). -/
noncomputable def codeGammaEff (node : ModalNode) (k : Fin 4) : ℝ :=
  if node.personality = NodePersonality.selfOscillator then
    -(node.modes k).params.gamma
      + 3 * (node.modes k).params.gamma
        * (Complex.abs ((node.modes k).a) * Complex.abs ((node.modes k).a)) / 1
  else (node.modes k).params.gamma

lemma codeGammaEff_eq_gammaEff (node : ModalNode) (k : Fin 4) :
    codeGammaEff node k = gammaEff node k := by
  unfold codeGammaEff gammaEff
  split
  · ring
  · rfl

/-- C2: one `step()` call on a running node updates every active mode to
`a·e^{λ·dt} + forcing·dt` with `dt = 1/500`, `λ = −γ_eff + iω`, where
`γ_eff` follows the personality and the forcing vanishes whenever no
excitation envelope is active; the step counter increments by exactly one,
and `step()` is a no-op when the node is not running. -/
theorem modal_node_step_dynamics (node : ModalNode) (rnd : Fin 4 → ℝ) :
    (node.running = false → modal_node_step node rnd = node) ∧
    (node.running = true →
      (modal_node_step node rnd).step_count = node.step_count + 1 ∧
      ∀ k : Fin 4, (node.modes k).params.active = true →
        (((modal_node_step node rnd).modes k).a
          = (node.modes k).a
              * Complex.exp (((-(gammaEff node k) : ℝ)
                  + Complex.I * ((node.modes k).params.omega : ℝ)) * ((1 : ℝ)/500))
            + stepForcing node rnd k * ((1 : ℝ)/500)) ∧
        ((stepEnvelope node.excitation).active = false →
          stepForcing node rnd k = 0)) := by
  constructor
  · intro hstop
    simp [modal_node_step, hstop]
  · intro hrun
    have hdt : ((CONTROL_DT : ℚ) : ℝ) = (1 : ℝ)/500 := by
      norm_num [CONTROL_DT]
    constructor
    · simp [modal_node_step, hrun]
    · intro k hact
      have hstepa : ((modal_node_step node rnd).modes k).a
          = (node.modes k).a
              * Complex.exp ((((-(codeGammaEff node k) : ℝ) : ℂ)
                  + Complex.I * ((node.modes k).params.omega : ℝ))
                  * ((CONTROL_DT : ℚ) : ℝ))
            + stepForcing node rnd k * ((CONTROL_DT : ℚ) : ℝ) := by
        simp only [modal_node_step, hrun, Bool.true_eq_false, if_false, hact,
          codeGammaEff, stepForcing]
      constructor
      · rw [hstepa, codeGammaEff_eq_gammaEff, hdt]
        push_cast
        ring_nf
      · intro hinact
        simp only [stepForcing, hinact, Bool.false_eq_true, if_false]

/-- Concrete node used to witness C2: mode 0 configured, node started. -/
noncomputable def c2Node : ModalNode :=
  modal_node_start
    (modal_node_set_mode
      (modal_node_init 7 NodePersonality.resonator (fun _ => (1/2, 1/2)))
      0 (2 * Real.pi * 440) (1/2) 1)

/-- Witness for C2: the dynamics equation holds at a concrete running node
with an active mode and an inactive envelope. -/
theorem modal_node_step_dynamics_witness :
    (modal_node_step c2Node (fun _ => 0)).step_count = c2Node.step_count + 1 ∧
    stepForcing c2Node (fun _ => 0) 0 = 0 :=
  ⟨((modal_node_step_dynamics c2Node (fun _ => 0)).2 rfl).1,
    (((modal_node_step_dynamics c2Node (fun _ => 0)).2 rfl).2 0 rfl).2 rfl⟩

/-- Counterexample for C6: the envelope factor is NOT a Hann window in the
claimed sense — at the midpoint it equals 1/2 (not 1) and at `t = 1` it
equals 1 (not 0), for both the guard-wrapped `envelope_hann` and the inline
shape used by `modal_node_step`. -/
theorem envelope_hann_counterexample :
    envelope_hann (1/2) = 1/2 ∧ hann_factor (1/2) = 1/2 ∧
    envelope_hann 1 = 1 ∧ hann_factor 1 = 1 ∧
    ¬(envelope_hann (1/2) = 1 ∧ envelope_hann 1 = 0) := by
  have hmid : Real.cos (Real.pi * (1/2)) = 0 := by
    rw [mul_one_div]
    exact Real.cos_pi_div_two
  have hone : Real.cos (Real.pi * 1) = -1 := by
    rw [mul_one]
    exact Real.cos_pi
  have e1 : envelope_hann (1/2) = 1/2 := by
    unfold envelope_hann
    rw [if_neg (by norm_num), if_neg (by norm_num), hmid]
    norm_num
  have e2 : hann_factor (1/2) = 1/2 := by
    unfold hann_factor
    rw [hmid]
    norm_num
  have e3 : envelope_hann 1 = 1 := by
    unfold envelope_hann
    rw [if_neg (by norm_num), if_neg (by norm_num), hone]
    norm_num
  have e4 : hann_factor 1 = 1 := by
    unfold hann_factor
    rw [hone]
    norm_num
  refine ⟨e1, e2, e3, e4, ?_⟩
  rintro ⟨hbad, -⟩
  rw [e1] at hbad
  norm_num at hbad

/-- C6 amended: the envelope factor is the half-period raised-cosine ramp
`0.5·(1 − cos(π·t))`: it is 0 at `t = 0`, 1/2 at the midpoint and 1 at
`t = 1`; on `[0, 1]` the guarded `envelope_hann` agrees with the inline
factor of `modal_node_step`. -/
theorem envelope_ramp_values :
    envelope_hann 0 = 0 ∧ envelope_hann (1/2) = 1/2 ∧ envelope_hann 1 = 1 ∧
    (∀ t : ℝ, 0 ≤ t → t ≤ 1 → envelope_hann t = hann_factor t) := by
  have e0 : envelope_hann 0 = 0 := by
    unfold envelope_hann
    rw [if_neg (by norm_num), if_neg (by norm_num)]
    simp
  have hmid : Real.cos (Real.pi * (1/2)) = 0 := by
    rw [mul_one_div]
    exact Real.cos_pi_div_two
  have hone : Real.cos (Real.pi * 1) = -1 := by
    rw [mul_one]
    exact Real.cos_pi
  refine ⟨e0, ?_, ?_, ?_⟩
  · unfold envelope_hann
    rw [if_neg (by norm_num), if_neg (by norm_num), hmid]
    norm_num
  · unfold envelope_hann
    rw [if_neg (by norm_num), if_neg (by norm_num), hone]
    norm_num
  · intro t h0 h1
    unfold envelope_hann hann_factor
    rw [if_neg (not_lt.mpr h0), if_neg (not_lt.mpr h1)]

/-- Witness for the C6 amended theorem at `t = 1/2`. -/
theorem envelope_ramp_values_witness :
    envelope_hann (1/2) = hann_factor (1/2) :=
  envelope_ramp_values.2.2.2 (1/2) (by norm_num) (by norm_num)

/-- C10: after `modal_node_init` every mode is inactive, the node is not
running, the step counter is 0, and each mode amplitude is noise with both
components in `[−0.005, 0.005]` (given that the uniform draws lie in
`[0, 1]`); `modal_node_reset` zeroes every amplitude exactly while leaving
the running flag unchanged. -/
theorem modal_node_init_noise_and_reset (node_id : ℕ)
    (personality : NodePersonality) (noise : Fin 4 → ℚ × ℚ)
    (h : ∀ k, 0 ≤ (noise k).1 ∧ (noise k).1 ≤ 1 ∧
      0 ≤ (noise k).2 ∧ (noise k).2 ≤ 1) :
    (∀ k, ((modal_node_init node_id personality noise).modes k).params.active
        = false) ∧
    (modal_node_init node_id personality noise).running = false ∧
    (modal_node_init node_id personality noise).step_count = 0 ∧
    (∀ k, -(1/200 : ℝ) ≤ ((modal_node_init node_id personality noise).modes k).a.re ∧
      ((modal_node_init node_id personality noise).modes k).a.re ≤ 1/200 ∧
      -(1/200 : ℝ) ≤ ((modal_node_init node_id personality noise).modes k).a.im ∧
      ((modal_node_init node_id personality noise).modes k).a.im ≤ 1/200) ∧
    (∀ m : ModalNode, (modal_node_reset m).running = m.running ∧
      ∀ k, ((modal_node_reset m).modes k).a = 0) := by
  refine ⟨fun k => rfl, rfl, rfl, ?_, fun m => ⟨rfl, fun k => rfl⟩⟩
  intro k
  obtain ⟨h1, h2, h3, h4⟩ := h k
  have b1 : -(1/200 : ℚ) ≤ ((noise k).1 - 1/2) * (1/100) := by linarith
  have b2 : ((noise k).1 - 1/2) * (1/100) ≤ (1/200 : ℚ) := by linarith
  have b3 : -(1/200 : ℚ) ≤ ((noise k).2 - 1/2) * (1/100) := by linarith
  have b4 : ((noise k).2 - 1/2) * (1/100) ≤ (1/200 : ℚ) := by linarith
  refine ⟨?_, ?_, ?_, ?_⟩
  · show -(1/200 : ℝ) ≤ ((((noise k).1 - 1/2) * (1/100) : ℚ) : ℝ)
    have := (Rat.cast_le (K := ℝ)).mpr b1
    push_cast at this ⊢
    linarith
  · show ((((noise k).1 - 1/2) * (1/100) : ℚ) : ℝ) ≤ 1/200
    have := (Rat.cast_le (K := ℝ)).mpr b2
    push_cast at this ⊢
    linarith
  · show -(1/200 : ℝ) ≤ ((((noise k).2 - 1/2) * (1/100) : ℚ) : ℝ)
    have := (Rat.cast_le (K := ℝ)).mpr b3
    push_cast at this ⊢
    linarith
  · show ((((noise k).2 - 1/2) * (1/100) : ℚ) : ℝ) ≤ 1/200
    have := (Rat.cast_le (K := ℝ)).mpr b4
    push_cast at this ⊢
    linarith

/-- Witness for C10 at concrete draws. -/
theorem modal_node_init_noise_and_reset_witness :
    (modal_node_init 0 NodePersonality.resonator (fun _ => (1/2, 1/2))).running
      = false :=
  (modal_node_init_noise_and_reset 0 NodePersonality.resonator
    (fun _ => (1/2, 1/2))
    (fun _ => ⟨by norm_num, by norm_num, by norm_num, by norm_num⟩)).2.1

/-! ## audio_synth: per-sample renderer

From src/au-plugin/src/esp32_port/audio_synth.c.  The synth object holds a
pointer to its node; the pointer target is passed explicitly to `render`
(`Option.none` models a null pointer). -/

structure SynthParams where
  sample_rate : ℚ
  phase_accumulator : Fin 4 → ℕ
  mode_gains : Fin 4 → ℚ
  master_gain : ℚ
  muted : Bool

structure AudioSynth where
  params : SynthParams
  amplitude_smooth : Fin 4 → ℝ
  initialized : Bool

/-- `audio_synth_init`: zeroed accumulators and smoothing, unit gains,
unmuted, initialized. -/
def audio_synth_init (sample_rate : ℚ) : AudioSynth :=
  { params :=
      { sample_rate := sample_rate
        phase_accumulator := fun _ => 0
        mode_gains := fun _ => 1
        master_gain := 1
        muted := false }
    amplitude_smooth := fun _ => 0
    initialized := true }

/-- A default-constructed synth member before `audio_synth_init` runs. -/
def audio_synth_uninit : AudioSynth :=
  { params :=
      { sample_rate := 0
        phase_accumulator := fun _ => 0
        mode_gains := fun _ => 0
        master_gain := 0
        muted := false }
    amplitude_smooth := fun _ => 0
    initialized := false }

/-- The while-loop normalization of `fast_sin`: repeatedly add or subtract
`2π` until the argument lies in `[-π, π]` (closed form of the two loops). -/
noncomputable def wrapToPi (x : ℝ) : ℝ :=
  if Real.pi < x then x - 2 * Real.pi * ⌈(x - Real.pi) / (2 * Real.pi)⌉
  else if x < -Real.pi then x + 2 * Real.pi * ⌈(-Real.pi - x) / (2 * Real.pi)⌉
  else x

/-- `fast_sin`: degree-5 Taylor polynomial of sine after range reduction. -/
noncomputable def fast_sin (x : ℝ) : ℝ :=
  wrapToPi x - (wrapToPi x) ^ 3 / 6 + (wrapToPi x) ^ 5 / 120

/-- One mode's contribution to one sample of `audio_synth_render`, threading
the `(amplitude_smooth, phase_accumulator, sample_sum)` state.
`SMOOTH_ALPHA = 0.12`, `MAX_AMPLITUDE_SCALE = 0.7`; only an upper clip is
applied.  The phase accumulator is a `uint32_t`, hence the `% 2^32`. -/
noncomputable def renderModeStep (node : ModalNode) (p : SynthParams)
    (st : (Fin 4 → ℝ) × (Fin 4 → ℕ) × ℝ) (k : Fin 4) :
    (Fin 4 → ℝ) × (Fin 4 → ℕ) × ℝ :=
  if (node.modes k).params.active = false then st
  else
    let amplitude_raw :=
      Complex.abs ((node.modes k).a) * (node.modes k).params.weight
    let smoothed := st.1 k + (12/100 : ℝ) * (amplitude_raw - st.1 k)
    let amplitude0 :=
      smoothed * (p.mode_gains k : ℝ) * (p.master_gain : ℝ) * (7/10 : ℝ)
    let amplitude := if amplitude0 > (7/10 : ℝ) then (7/10 : ℝ) else amplitude0
    let omega := (node.modes k).params.omega
    let freq_hz := omega / (2 * Real.pi)
    let phase_inc := 2 * Real.pi * freq_hz / (p.sample_rate : ℝ)
    let phase := ((st.2.1 k : ℝ) / 4294967296) * (2 * Real.pi)
      + Complex.arg ((node.modes k).a)
    let sample_f := amplitude * fast_sin phase
    (Function.update st.1 k smoothed,
     Function.update st.2.1 k
       ((st.2.1 k + (⌊phase_inc * 4294967296 / (2 * Real.pi)⌋).toNat)
         % 4294967296),
     st.2.2 + sample_f)

/-- The per-frame loop of `audio_synth_render`: each frame folds the four
modes over the threaded state and emits the accumulated `sample_sum`. -/
noncomputable def renderSamples (node : ModalNode) (p : SynthParams) :
    ℕ → (Fin 4 → ℝ) → (Fin 4 → ℕ) → (Fin 4 → ℝ) × (Fin 4 → ℕ) × List ℝ
  | 0, smooth, accs => (smooth, accs, [])
  | n + 1, smooth, accs =>
    let st := (List.finRange 4).foldl (renderModeStep node p) (smooth, accs, 0)
    let rest := renderSamples node p n st.1 st.2.1
    (rest.1, rest.2.1, st.2.2 :: rest.2.2)

/-- `audio_synth_render`: silence when uninitialized, node-less or muted;
otherwise the mono mode mix duplicated to both channels, with the smoothing
and phase state written back. -/
noncomputable def audio_synth_render (synth : AudioSynth)
    (node : Option ModalNode) (num_frames : ℕ) :
    AudioSynth × List ℝ × List ℝ :=
  match synth.initialized, node with
  | false, _ =>
    (synth, List.replicate num_frames 0, List.replicate num_frames 0)
  | true, Option.none =>
    (synth, List.replicate num_frames 0, List.replicate num_frames 0)
  | true, Option.some nd =>
    if synth.params.muted then
      (synth, List.replicate num_frames 0, List.replicate num_frames 0)
    else
      let r := renderSamples nd synth.params num_frames
        synth.amplitude_smooth synth.params.phase_accumulator
      ({ synth with
          amplitude_smooth := r.1
          params := { synth.params with phase_accumulator := r.2.1 } },
       r.2.2, r.2.2)

/-! ## ModalVoice: C++ wrapper around one node plus playback metadata

From src/au-plugin/src/dsp_core/ModalVoice.cpp. -/

inductive VoiceState
  | inactive | attack | sustain | release
deriving DecidableEq

structure MVoice where
  voice_id : ℕ
  state : VoiceState
  midi_note : ℕ
  velocity : ℚ
  pitch_bend : ℚ
  age : ℕ
  samples_since_update : ℕ
  samples_per_update : ℕ
  sample_rate : ℚ
  node : ModalNode
  synth : AudioSynth

/-- `ModalVoice::ModalVoice`: inactive, note 60, resonator node; the synth
member is not yet initialized. -/
def mvoice_new (voice_id : ℕ) (noise : Fin 4 → ℚ × ℚ) : MVoice :=
  { voice_id := voice_id
    state := VoiceState.inactive
    midi_note := 60
    velocity := 0
    pitch_bend := 0
    age := 0
    samples_since_update := 0
    samples_per_update := 0
    sample_rate := 48000
    node := modal_node_init voice_id NodePersonality.resonator noise
    synth := audio_synth_uninit }

/-- `ModalVoice::isActive`. -/
def mvoice_isActive (v : MVoice) : Bool := v.state ≠ VoiceState.inactive

/-- `ModalVoice::getMode0Amplitude`. -/
def getMode0Amplitude (v : MVoice) : ℂ := (v.node.modes 0).a

/-- `ModalVoice::setMode`: bounds check then configure through
`modal_node_set_mode` with `ω = 2π·f`. -/
noncomputable def mvoice_setMode (v : MVoice) (mode_idx : ℕ)
    (freq_hz damping weight : ℝ) : MVoice :=
  if mode_idx ≥ 4 then v
  else
    { v with
      node := modal_node_set_mode v.node mode_idx (freq_to_omega freq_hz)
        damping weight }

/-- `ModalVoice::initialize`: record the sample rate and control divider,
initialize the synth, configure the four default modes from note 60's base
frequency (ratios 1, 1.01, 2, 3; dampings 0.5, 0.6, 0.8, 1.0; weights
1, 0.7, 0.5, 0.3), start the node. -/
noncomputable def mvoice_initialize (v : MVoice) (sample_rate : ℚ) : MVoice :=
  let v1 := { v with
    sample_rate := sample_rate
    samples_per_update := (⌊(sample_rate / 500 : ℚ)⌋).toNat
    synth := audio_synth_init sample_rate }
  let base_freq := midi_to_freq v.midi_note
  let v2 := mvoice_setMode v1 0 (base_freq * 1) (1/2) 1
  let v3 := mvoice_setMode v2 1 (base_freq * (101/100)) (6/10) (7/10)
  let v4 := mvoice_setMode v3 2 (base_freq * 2) (8/10) (1/2)
  let v5 := mvoice_setMode v4 3 (base_freq * 3) 1 (3/10)
  { v5 with node := modal_node_start v5.node }

/-- `ModalVoice::updateFrequencies`: recompute the base frequency from the
note and pitch bend (`±2` semitones) and rewrite the four mode frequencies
at ratios 1, 1.01, 2, 3 keeping each mode's current damping and weight. -/
noncomputable def mvoice_updateFrequencies (v : MVoice) : MVoice :=
  let base_freq := midi_to_freq v.midi_note
    * (2 : ℝ) ^ (((v.pitch_bend : ℝ) * 2) / 12)
  let v1 := mvoice_setMode v 0 (base_freq * 1)
    ((v.node.modes 0).params.gamma) ((v.node.modes 0).params.weight)
  let v2 := mvoice_setMode v1 1 (base_freq * (101/100))
    ((v1.node.modes 1).params.gamma) ((v1.node.modes 1).params.weight)
  let v3 := mvoice_setMode v2 2 (base_freq * 2)
    ((v2.node.modes 2).params.gamma) ((v2.node.modes 2).params.weight)
  mvoice_setMode v3 3 (base_freq * 3)
    ((v3.node.modes 3).params.gamma) ((v3.node.modes 3).params.weight)

/-- `ModalVoice::noteOn`: record note/velocity, go to Attack, reset age,
update frequencies, apply a random-phase poke with unit mode weights. -/
noncomputable def mvoice_noteOn (v : MVoice) (midi_note : ℕ) (velocity : ℚ)
    (rnd : Fin 4 → ℝ) : MVoice :=
  let v1 := { v with
    midi_note := midi_note
    velocity := velocity
    state := VoiceState.attack
    age := 0 }
  let v2 := mvoice_updateFrequencies v1
  { v2 with
    node := modal_node_apply_poke v2.node
      { source_node_id := v.voice_id
        strength := velocity
        phase_hint := -1
        mode_weights := fun _ => 1 } rnd }

/-- `ModalVoice::noteOff`: Release unless already Inactive. -/
def mvoice_noteOff (v : MVoice) : MVoice :=
  if v.state = VoiceState.inactive then v
  else { v with state := VoiceState.release }

/-- `ModalVoice::setPitchBend` (the range argument is unused in the code). -/
noncomputable def mvoice_setPitchBend (v : MVoice) (bend_amount : ℚ) : MVoice :=
  mvoice_updateFrequencies { v with pitch_bend := bend_amount }

/-- `ModalVoice::reset`: reset the node, go Inactive, zero age and sample
counter. -/
def mvoice_reset (v : MVoice) : MVoice :=
  { v with
    node := modal_node_reset v.node
    state := VoiceState.inactive
    age := 0
    samples_since_update := 0 }

/-- `ModalVoice::updateState`: Attack→Sustain for self-oscillators,
Release→Inactive (with reset) once the amplitude falls below 0.001. -/
noncomputable def mvoice_updateState (v : MVoice) : MVoice :=
  match v.state with
  | VoiceState.inactive => v
  | VoiceState.attack =>
    if v.node.personality = NodePersonality.selfOscillator then
      { v with state := VoiceState.sustain }
    else v
  | VoiceState.sustain => v
  | VoiceState.release =>
    if modal_node_get_amplitude v.node < 1/1000 then
      mvoice_reset { v with state := VoiceState.inactive }
    else v

/-- `ModalVoice::updateModal`: for non-inactive voices, step the node, run
the state machine, increment age. -/
noncomputable def mvoice_updateModal (v : MVoice) (rnd : Fin 4 → ℝ) : MVoice :=
  if v.state = VoiceState.inactive then v
  else
    let v1 := { v with node := modal_node_step v.node rnd }
    let v2 := mvoice_updateState v1
    { v2 with age := v2.age + 1 }

/-- `ModalVoice::applyCoupling`: for every active mode, add
`coupling_strength · input · CONTROL_DT` (a real scalar) to the amplitude. -/
noncomputable def mvoice_applyCoupling (v : MVoice)
    (coupling_inputs : Fin 4 → ℝ) : MVoice :=
  { v with
    node := { v.node with
      modes := fun k =>
        if (v.node.modes k).params.active = false then v.node.modes k
        else
          { v.node.modes k with
            a := (v.node.modes k).a
              + ((((v.node.coupling_strength : ℝ) * coupling_inputs k : ℝ)
                  * ((CONTROL_DT : ℚ) : ℝ) : ℝ) : ℂ) } } }

/-- `ModalVoice::renderAudio`: zeros when Inactive, otherwise delegate to
the synth (whose node pointer targets this voice's node) and count the
rendered frames. -/
noncomputable def mvoice_renderAudio (v : MVoice) (num_frames : ℕ) :
    MVoice × List ℝ × List ℝ :=
  if v.state = VoiceState.inactive then
    (v, List.replicate num_frames 0, List.replicate num_frames 0)
  else
    let r := audio_synth_render v.synth (Option.some v.node) num_frames
    ({ v with
        synth := r.1
        samples_since_update := v.samples_since_update + num_frames },
     r.2.1, r.2.2)

/-! ## TopologyEngine::updateCoupling (C1)

The voice array is modelled as `Fin n → MVoice`; the fold over `finRange n`
mirrors the outer `for` loop, mutating voice `i` in place before voice
`i+1` reads its neighbors. -/

/-- The inner accumulation loop of `TopologyEngine::updateCoupling` for
voice `i`: only `coupling_inputs[0]` is accumulated, from
`|a0_j − a0_i| · weight[i][j] · coupling_strength` over active neighbors
with positive matrix weight. -/
noncomputable def couplingInputs (coupling_strength : ℚ) (mat : Mat)
    {n : ℕ} (voices : Fin n → MVoice) (i : Fin n) : Fin 4 → ℝ :=
  fun k =>
    if k = 0 then
      (List.finRange n).foldl
        (fun acc j =>
          if j = i then acc
          else if mvoice_isActive (voices j) = false then acc
          else if mat i j > 0 then
            acc + Complex.abs (getMode0Amplitude (voices j)
                - getMode0Amplitude (voices i))
              * ((mat i j : ℚ) : ℝ) * ((coupling_strength : ℚ) : ℝ)
          else acc)
        0
    else 0

/-- One iteration of the outer loop: skip inactive voices, otherwise apply
the accumulated inputs to voice `i` in place. -/
noncomputable def updateCouplingStep (coupling_strength : ℚ) (mat : Mat)
    {n : ℕ} (voices : Fin n → MVoice) (i : Fin n) : Fin n → MVoice :=
  if mvoice_isActive (voices i) = false then voices
  else
    Function.update voices i
      (mvoice_applyCoupling (voices i)
        (couplingInputs coupling_strength mat voices i))

/-- `TopologyEngine::updateCoupling`: the literal sequential pass — voice
`i` is mutated before voices after `i` compute their inputs. -/
noncomputable def updateCoupling (coupling_strength : ℚ) (mat : Mat)
    {n : ℕ} (voices : Fin n → MVoice) : Fin n → MVoice :=
  (List.finRange n).foldl
    (fun vs i => updateCouplingStep coupling_strength mat vs i) voices

/-- Modelled from the spec: the snapshot-based reference update — every
voice's inputs are computed from the pre-tick state, then all voices are
updated. -/
noncomputable def updateCouplingSnapshot (coupling_strength : ℚ) (mat : Mat)
    {n : ℕ} (voices : Fin n → MVoice) : Fin n → MVoice :=
  fun i =>
    if mvoice_isActive (voices i) = false then voices i
    else
      mvoice_applyCoupling (voices i)
        (couplingInputs coupling_strength mat voices i)

/-! ### C1: the literal coupling update is not snapshot-based -/

/-- The sequential pass truncated to the first `k` voice indices. -/
noncomputable def updateCouplingUpTo (coupling_strength : ℚ) (mat : Mat)
    {n : ℕ} (voices : Fin n → MVoice) (k : ℕ) : Fin n → MVoice :=
  ((List.finRange n).take k).foldl
    (fun vs i => updateCouplingStep coupling_strength mat vs i) voices

lemma updateCouplingStep_apply_ne (cs : ℚ) (mat : Mat) {n : ℕ}
    (vs : Fin n → MVoice) {i j : Fin n} (hne : i ≠ j) :
    updateCouplingStep cs mat vs j i = vs i := by
  unfold updateCouplingStep
  split
  · rfl
  · exact Function.update_noteq hne _ vs

lemma foldl_updateCouplingStep_apply_not_mem (cs : ℚ) (mat : Mat) {n : ℕ}
    (i : Fin n) :
    ∀ (l : List (Fin n)) (vs : Fin n → MVoice), i ∉ l →
      (l.foldl (fun vs j => updateCouplingStep cs mat vs j) vs) i = vs i := by
  intro l
  induction l with
  | nil => intro vs _; rfl
  | cons x xs ih =>
    intro vs hmem
    have hx : i ≠ x := fun h => hmem (h ▸ List.mem_cons_self x xs)
    have hxs : i ∉ xs := fun h => hmem (List.mem_cons_of_mem x h)
    simp only [List.foldl_cons]
    rw [ih _ hxs, updateCouplingStep_apply_ne cs mat vs hx]

lemma finRange_take_not_mem {n : ℕ} (i : Fin n) :
    i ∉ (List.finRange n).take i.val := by
  intro hmem
  obtain ⟨m, hm, hval⟩ := List.mem_iff_getElem.mp hmem
  have hmlt : m < i.val := lt_of_lt_of_le hm (by simp [List.length_take])
  have hmn : m < (List.finRange n).length := by
    simp only [List.length_finRange]
    exact lt_trans hmlt i.isLt
  rw [List.getElem_take] at hval
  have : (⟨m, by simpa using hmn⟩ : Fin n) = i := by
    simpa [List.getElem_finRange, Fin.cast] using hval
  have := congrArg Fin.val this
  simp at this
  omega

lemma finRange_drop_not_mem {n : ℕ} (i : Fin n) :
    i ∉ (List.finRange n).drop (i.val + 1) := by
  intro hmem
  obtain ⟨m, hm, hval⟩ := List.mem_iff_getElem.mp hmem
  rw [List.getElem_drop] at hval
  have hmn : i.val + 1 + m < (List.finRange n).length := by
    have := hm
    simp only [List.length_drop, List.length_finRange] at this ⊢
    omega
  have : (⟨i.val + 1 + m, by simpa using hmn⟩ : Fin n) = i := by
    simpa [List.getElem_finRange, Fin.cast] using hval
  have := congrArg Fin.val this
  simp at this
  omega

lemma updateCouplingUpTo_apply_self (cs : ℚ) (mat : Mat) {n : ℕ}
    (voices : Fin n → MVoice) (i : Fin n) :
    updateCouplingUpTo cs mat voices i.val i = voices i := by
  unfold updateCouplingUpTo
  exact foldl_updateCouplingStep_apply_not_mem cs mat i _ voices
    (finRange_take_not_mem i)

/-- C1 amended: `updateCoupling` is the literal sequential pass — the result
at voice `i` is `applyCoupling` of the pre-tick voice `i` with inputs read
from the state in which all voices before `i` in iteration order have
already been mutated (not from a pre-tick snapshot). -/
theorem updateCoupling_reads_partially_updated_state (cs : ℚ) (mat : Mat)
    {n : ℕ} (voices : Fin n → MVoice) (i : Fin n) :
    updateCoupling cs mat voices i
      = if mvoice_isActive (voices i) = false then voices i
        else
          mvoice_applyCoupling (voices i)
            (couplingInputs cs mat
              (updateCouplingUpTo cs mat voices i.val) i) := by
  have hiv : i.val < (List.finRange n).length := by
    simp only [List.length_finRange]
    exact i.isLt
  have hsplit : List.finRange n =
      (List.finRange n).take i.val
        ++ i :: (List.finRange n).drop (i.val + 1) := by
    conv_lhs => rw [← List.take_append_drop i.val (List.finRange n)]
    rw [List.drop_eq_getElem_cons hiv]
    congr 1
    congr 1
    simp [List.getElem_finRange, Fin.cast]
  unfold updateCoupling
  rw [hsplit, List.foldl_append, List.foldl_cons]
  rw [foldl_updateCouplingStep_apply_not_mem cs mat i _ _
    (finRange_drop_not_mem i)]
  have hAi : updateCouplingUpTo cs mat voices i.val i = voices i :=
    updateCouplingUpTo_apply_self cs mat voices i
  show updateCouplingStep cs mat (updateCouplingUpTo cs mat voices i.val) i i
      = _
  unfold updateCouplingStep
  rw [hAi]
  split
  · exact hAi
  · rw [Function.update_same]

/-- Concrete voice for the C1 counterexample: Attack state, mode 0 active
with real amplitude `amp`, node coupling strength 1. -/
noncomputable def c1Voice (voice_id : ℕ) (amp : ℚ) : MVoice :=
  { voice_id := voice_id
    state := VoiceState.attack
    midi_note := 60
    velocity := 1
    pitch_bend := 0
    age := 0
    samples_since_update := 0
    samples_per_update := 0
    sample_rate := 48000
    node :=
      { node_id := voice_id
        personality := NodePersonality.resonator
        modes := fun k =>
          { a := if k = 0 then ((amp : ℝ) : ℂ) else 0
            a_dot := 0
            params := { omega := 1, gamma := 1, weight := 1
                        active := decide (k = 0) } }
        excitation := { strength := 0, duration_ms := 0, elapsed_ms := 0
                        phase_hint := 0, active := false }
        coupling_strength := 1
        carrier_freq_hz := 440
        audio_gain := 7/10
        step_count := 0
        running := true }
    synth := audio_synth_uninit }

/-- Two coupled voices with mode-0 amplitudes 0 and 1. -/
noncomputable def c1Voices : Fin 2 → MVoice := ![c1Voice 0 0, c1Voice 1 1]

/-- Symmetric 2-voice coupling matrix with unit weights. -/
def c1Mat : Mat := fun i j =>
  if (i = 0 ∧ j = 1) ∨ (i = 1 ∧ j = 0) then 1 else 0

lemma c1Voices_zero : c1Voices 0 = c1Voice 0 0 := rfl

lemma c1Voices_one : c1Voices 1 = c1Voice 1 1 := rfl

lemma c1Voice_isActive (id : ℕ) (amp : ℚ) :
    mvoice_isActive (c1Voice id amp) = true := rfl

lemma c1Voice_mode0 (id : ℕ) (amp : ℚ) :
    getMode0Amplitude (c1Voice id amp) = ((amp : ℝ) : ℂ) := by
  simp [getMode0Amplitude, c1Voice]

lemma applyCoupling_isActive (v : MVoice) (inputs : Fin 4 → ℝ) :
    mvoice_isActive (mvoice_applyCoupling v inputs) = mvoice_isActive v := rfl

/-- Mode 0 of a counterexample voice after `applyCoupling` (mode 0 is
active and the node's own coupling strength is 1). -/
lemma applyCoupling_mode0_c1 (id : ℕ) (amp : ℚ) (inputs : Fin 4 → ℝ) :
    getMode0Amplitude (mvoice_applyCoupling (c1Voice id amp) inputs)
      = ((amp : ℝ) : ℂ)
        + ((((1 : ℝ) * inputs 0 * ((CONTROL_DT : ℚ) : ℝ)) : ℝ) : ℂ) := by
  simp [getMode0Amplitude, mvoice_applyCoupling, c1Voice]

/-- The inner accumulation for voice 1 of a two-voice pool with an active
voice 0 and positive matrix weight. -/
lemma couplingInputs_two_at1 (cs : ℚ) (mat : Mat) (vs : Fin 2 → MVoice)
    (hact : mvoice_isActive (vs 0) = true) (hw : mat 1 0 > 0) :
    couplingInputs cs mat vs 1 0
      = Complex.abs (getMode0Amplitude (vs 0) - getMode0Amplitude (vs 1))
          * ((mat 1 0 : ℚ) : ℝ) * ((cs : ℚ) : ℝ) := by
  have hfr : List.finRange 2 = [0, 1] := by decide
  simp [couplingInputs, hfr, hact, hw, Fin.val_zero, Fin.val_one]

/-- The inner accumulation for voice 0 of a two-voice pool with an active
voice 1 and positive matrix weight. -/
lemma couplingInputs_two_at0 (cs : ℚ) (mat : Mat) (vs : Fin 2 → MVoice)
    (hact : mvoice_isActive (vs 1) = true) (hw : mat 0 1 > 0) :
    couplingInputs cs mat vs 0 0
      = Complex.abs (getMode0Amplitude (vs 1) - getMode0Amplitude (vs 0))
          * ((mat 0 1 : ℚ) : ℝ) * ((cs : ℚ) : ℝ) := by
  have hfr : List.finRange 2 = [0, 1] := by decide
  simp [couplingInputs, hfr, hact, hw, Fin.val_zero, Fin.val_one]

lemma c1Mat_01 : c1Mat 0 1 = 1 := by norm_num [c1Mat]

lemma c1Mat_10 : c1Mat 1 0 = 1 := by norm_num [c1Mat]

lemma c1_inputs_at0 : couplingInputs 1 c1Mat c1Voices 0 0 = 1 := by
  rw [couplingInputs_two_at0 1 c1Mat c1Voices
    (by rw [c1Voices_one]; exact c1Voice_isActive 1 1)
    (by rw [c1Mat_01]; norm_num)]
  rw [c1Voices_zero, c1Voices_one, c1Voice_mode0, c1Voice_mode0, c1Mat_01]
  have habs : (((1 : ℚ) : ℝ) : ℂ) - (((0 : ℚ) : ℝ) : ℂ) = (1 : ℂ) := by
    push_cast
    ring
  rw [habs, map_one Complex.abs]
  norm_num

/-- The sequential pass, written out for two voices. -/
lemma c1_seq_unfold :
    updateCoupling 1 c1Mat c1Voices
      = updateCouplingStep 1 c1Mat (updateCouplingStep 1 c1Mat c1Voices 0) 1 := by
  have hfr : List.finRange 2 = [0, 1] := by decide
  rw [updateCoupling, hfr]
  simp only [List.foldl_cons, List.foldl_nil]

lemma c1_vs1_at0 :
    (updateCouplingStep 1 c1Mat c1Voices 0) 0
      = mvoice_applyCoupling (c1Voice 0 0)
          (couplingInputs 1 c1Mat c1Voices 0) := by
  rw [updateCouplingStep]
  rw [if_neg (by rw [c1Voices_zero, c1Voice_isActive]; simp)]
  rw [Function.update_same, c1Voices_zero]

lemma c1_vs1_at1 :
    (updateCouplingStep 1 c1Mat c1Voices 0) 1 = c1Voice 1 1 := by
  rw [updateCouplingStep_apply_ne 1 c1Mat c1Voices (by decide : (1 : Fin 2) ≠ 0)]
  exact c1Voices_one

lemma c1_vs0_mode0 :
    getMode0Amplitude ((updateCouplingStep 1 c1Mat c1Voices 0) 0)
      = (((1/500 : ℝ)) : ℂ) := by
  rw [c1_vs1_at0, applyCoupling_mode0_c1, c1_inputs_at0]
  norm_num [CONTROL_DT]

lemma c1_seq_a1 :
    getMode0Amplitude (updateCoupling 1 c1Mat c1Voices 1)
      = (((1 : ℚ) : ℝ) : ℂ)
        + ((((1 : ℝ) * (499/500 * (1 : ℝ) * (1 : ℝ))
            * ((CONTROL_DT : ℚ) : ℝ)) : ℝ) : ℂ) := by
  rw [c1_seq_unfold]
  rw [updateCouplingStep]
  rw [if_neg (by rw [c1_vs1_at1, c1Voice_isActive]; simp)]
  rw [Function.update_same, c1_vs1_at1]
  rw [applyCoupling_mode0_c1]
  have hinp : couplingInputs 1 c1Mat (updateCouplingStep 1 c1Mat c1Voices 0) 1 0
      = 499/500 * (1 : ℝ) * (1 : ℝ) := by
    rw [couplingInputs_two_at1 1 c1Mat _
      (by rw [c1_vs1_at0, applyCoupling_isActive]; exact c1Voice_isActive 0 0)
      (by rw [c1Mat_10]; norm_num)]
    have habs : getMode0Amplitude ((updateCouplingStep 1 c1Mat c1Voices 0) 0)
        - getMode0Amplitude ((updateCouplingStep 1 c1Mat c1Voices 0) 1)
        = -(((499/500 : ℝ)) : ℂ) := by
      rw [c1_vs0_mode0, c1_vs1_at1, c1Voice_mode0]
      push_cast
      ring
    rw [habs, Complex.abs.map_neg, Complex.abs_ofReal, c1Mat_10,
      abs_of_pos (by norm_num : (0 : ℝ) < 499/500)]
    norm_num
  rw [hinp]

lemma c1_snap_a1 :
    getMode0Amplitude (updateCouplingSnapshot 1 c1Mat c1Voices 1)
      = (((1 : ℚ) : ℝ) : ℂ)
        + ((((1 : ℝ) * (1 * (1 : ℝ) * (1 : ℝ))
            * ((CONTROL_DT : ℚ) : ℝ)) : ℝ) : ℂ) := by
  rw [updateCouplingSnapshot]
  rw [if_neg (by rw [c1Voices_one, c1Voice_isActive]; simp)]
  rw [c1Voices_one, applyCoupling_mode0_c1]
  have hinp : couplingInputs 1 c1Mat c1Voices 1 0 = 1 * (1 : ℝ) * (1 : ℝ) := by
    rw [couplingInputs_two_at1 1 c1Mat c1Voices
      (by rw [c1Voices_zero]; exact c1Voice_isActive 0 0)
      (by rw [c1Mat_10]; norm_num)]
    have habs : getMode0Amplitude (c1Voices 0) - getMode0Amplitude (c1Voices 1)
        = -(((1 : ℝ)) : ℂ) := by
      rw [c1Voices_zero, c1Voices_one, c1Voice_mode0, c1Voice_mode0]
      push_cast
      ring
    rw [habs, Complex.abs.map_neg, Complex.abs_ofReal, c1Mat_10]
    norm_num
  rw [hinp]

/-- Counterexample for C1: on a concrete two-voice pool the literal
sequential `updateCoupling` and the snapshot-based reference produce
different post-tick states — voice 1 reads voice 0's already-updated
amplitude. -/
theorem updateCoupling_not_snapshot :
    updateCoupling 1 c1Mat c1Voices ≠ updateCouplingSnapshot 1 c1Mat c1Voices := by
  intro h
  have h1 : getMode0Amplitude (updateCoupling 1 c1Mat c1Voices 1)
      = getMode0Amplitude (updateCouplingSnapshot 1 c1Mat c1Voices 1) := by
    rw [h]
  rw [c1_seq_a1, c1_snap_a1] at h1
  have h2 := congrArg Complex.re h1
  simp only [Complex.add_re, Complex.ofReal_re] at h2
  norm_num [CONTROL_DT] at h2

/-! ## VoiceAllocator: polyphonic pool

From src/au-plugin/src/dsp_core/VoiceAllocator.cpp.  The voice array is a
list; the `int8_t note_to_voice_[128]` table is a function to `Option ℕ`
(`Option.none` models `-1`). -/

/-- Apply `f` to the element at index `i` (pointer-based mutation of one
pool slot). -/
def listModify {α : Type} (l : List α) (i : ℕ) (f : α → α) : List α :=
  l.mapIdx (fun j a => if j = i then f a else a)

structure VoiceAllocator where
  max_polyphony : ℕ
  voices : List MVoice
  note_to_voice : ℕ → Option ℕ
  pitch_bend : ℚ
  sample_rate : ℚ
  initialized : Bool

/-- `VoiceAllocator::VoiceAllocator`: pool of fresh voices, empty note
table, not yet initialized. -/
def va_new (max_polyphony : ℕ) (noise : ℕ → Fin 4 → ℚ × ℚ) : VoiceAllocator :=
  { max_polyphony := max_polyphony
    voices := (List.range max_polyphony).map (fun i => mvoice_new i (noise i))
    note_to_voice := fun _ => Option.none
    pitch_bend := 0
    sample_rate := 48000
    initialized := false }

/-- `VoiceAllocator::initialize`. -/
noncomputable def va_initialize (va : VoiceAllocator) (sample_rate : ℚ) :
    VoiceAllocator :=
  { va with
    sample_rate := sample_rate
    voices := va.voices.map (fun v => mvoice_initialize v sample_rate)
    initialized := true }

/-- `VoiceAllocator::findFreeVoice`: first Inactive voice in pool order. -/
def va_findFreeVoice (va : VoiceAllocator) : Option ℕ :=
  va.voices.findIdx? (fun v => mvoice_isActive v = false)

/-- The scan loop of `VoiceAllocator::stealOldestVoice`: `max_age` starts at
0 and `oldest` at null; a voice is recorded only when its age is strictly
greater than the running maximum. -/
def stealScan (voices : List MVoice) : ℕ × Option ℕ :=
  voices.enum.foldl
    (fun st p =>
      if mvoice_isActive p.2 then
        if p.2.age > st.1 then (p.2.age, Option.some p.1) else st
      else st)
    (0, Option.none)

/-- `VoiceAllocator::stealOldestVoice`: reset the scanned voice when one was
found; return it (or null). -/
def va_stealOldestVoice (va : VoiceAllocator) : VoiceAllocator × Option ℕ :=
  match (stealScan va.voices).2 with
  | Option.none => (va, Option.none)
  | Option.some i =>
    ({ va with voices := listModify va.voices i mvoice_reset }, Option.some i)

/-- `VoiceAllocator::noteOn`: re-trigger a mapped note's voice, otherwise
take the first free voice or steal the oldest; if a voice was obtained,
trigger it and record the note→voice mapping.  Returns the chosen voice
index (null when the note was dropped). -/
noncomputable def va_noteOn (va : VoiceAllocator) (midi_note velocity : ℕ)
    (rnd : Fin 4 → ℝ) : VoiceAllocator × Option ℕ :=
  if va.initialized = false ∨ 127 < midi_note then (va, Option.none)
  else
    match va.note_to_voice midi_note with
    | Option.some existing =>
      ({ va with
          voices := listModify va.voices existing (fun v =>
            mvoice_setPitchBend
              (mvoice_noteOn v midi_note ((velocity : ℚ) / 127) rnd)
              va.pitch_bend) },
       Option.some existing)
    | Option.none =>
      let pick : VoiceAllocator × Option ℕ :=
        match va_findFreeVoice va with
        | Option.some i => (va, Option.some i)
        | Option.none => va_stealOldestVoice va
      match pick.2 with
      | Option.none => (pick.1, Option.none)
      | Option.some i =>
        ({ pick.1 with
            voices := listModify pick.1.voices i (fun v =>
              mvoice_setPitchBend
                (mvoice_noteOn v midi_note ((velocity : ℚ) / 127) rnd)
                va.pitch_bend)
            note_to_voice := fun nn =>
              if nn = midi_note then Option.some i
              else pick.1.note_to_voice nn },
         Option.some i)

/-- `VoiceAllocator::noteOff`: release the mapped voice and clear the
mapping. -/
def va_noteOff (va : VoiceAllocator) (midi_note : ℕ) : VoiceAllocator :=
  if 127 < midi_note then va
  else
    match va.note_to_voice midi_note with
    | Option.none => va
    | Option.some vi =>
      if vi < va.max_polyphony then
        { va with
          voices := listModify va.voices vi mvoice_noteOff
          note_to_voice := fun nn =>
            if nn = midi_note then Option.none else va.note_to_voice nn }
      else va

/-- `VoiceAllocator::updateVoices`: advance every active voice at control
rate (`rnd i` supplies voice `i`'s random draws for this tick). -/
noncomputable def va_updateVoices (va : VoiceAllocator)
    (rnd : ℕ → Fin 4 → ℝ) : VoiceAllocator :=
  if va.initialized = false then va
  else
    { va with
      voices := va.voices.mapIdx (fun i v =>
        if mvoice_isActive v then mvoice_updateModal v (rnd i) else v) }

/-- `VoiceAllocator::renderAudio`: silence when uninitialized; otherwise mix
every active voice's rendered buffers into the zero-initialized output. -/
noncomputable def va_renderAudio (va : VoiceAllocator) (num_frames : ℕ) :
    VoiceAllocator × List ℝ × List ℝ :=
  if va.initialized = false then
    (va, List.replicate num_frames 0, List.replicate num_frames 0)
  else
    let r := va.voices.foldl
      (fun (acc : List MVoice × List ℝ × List ℝ) v =>
        if mvoice_isActive v then
          let vr := mvoice_renderAudio v num_frames
          (acc.1 ++ [vr.1],
           List.zipWith (· + ·) acc.2.1 vr.2.1,
           List.zipWith (· + ·) acc.2.2 vr.2.2)
        else (acc.1 ++ [v], acc.2.1, acc.2.2))
      ([], List.replicate num_frames 0, List.replicate num_frames 0)
    ({ va with voices := r.1 }, r.2.1, r.2.2)

/-! ### C4/C5: allocation exhaustion and the note→voice invariant -/

/-- A two-voice pool, initialized. -/
noncomputable def c4Pool : VoiceAllocator :=
  va_initialize (va_new 2 (fun _ _ => (1/2, 1/2))) 48000

/-- The pool after `noteOn(60)` and `noteOn(61)` with no control ticks. -/
noncomputable def c4AfterTwo : VoiceAllocator :=
  (va_noteOn ((va_noteOn c4Pool 60 100 (fun _ => 0)).1) 61 100 (fun _ => 0)).1

/-- C4: with pool size 2 and three sequential `noteOn`s (notes 60, 61, 62)
with no intervening ticks, every voice's age is still 0, the steal scan
(`age > max_age` against `max_age = 0`) finds nothing, and the third note is
silently dropped: `noteOn` returns null, note 62 is never mapped, and the
first two mappings are unchanged — no voice is stolen. -/
theorem noteOn_exhaustion_drops_note :
    (va_noteOn c4AfterTwo 62 100 (fun _ => 0)).2 = Option.none ∧
    (va_noteOn c4AfterTwo 62 100 (fun _ => 0)).1.note_to_voice 62
      = Option.none ∧
    (va_noteOn c4AfterTwo 62 100 (fun _ => 0)).1.note_to_voice 60
      = Option.some 0 ∧
    (va_noteOn c4AfterTwo 62 100 (fun _ => 0)).1.note_to_voice 61
      = Option.some 1 ∧
    (stealScan c4AfterTwo.voices).2 = Option.none := by
  refine ⟨rfl, rfl, rfl, rfl, rfl⟩

/-- A one-voice pool, initialized. -/
noncomputable def c5Pool : VoiceAllocator :=
  va_initialize (va_new 1 (fun _ _ => (1/2, 1/2))) 48000

/-- `noteOn(60)`, one control tick (so the voice's age becomes 1), then
`noteOn(61)`, which steals voice 0. -/
noncomputable def c5AfterSteal : VoiceAllocator :=
  (va_noteOn
    (va_updateVoices ((va_noteOn c5Pool 60 100 (fun _ => 0)).1)
      (fun _ _ => 0))
    61 100 (fun _ => 0)).1

/-- C5: after the steal, note 61 maps to voice 0 — but stale note 60 is
still mapped to voice 0 as well, while voice 0's assigned note is 61: the
claimed invariant (every mapped note refers to an active voice whose
assigned note equals the key, with unmapping on voice theft) is violated
because `stealOldestVoice` never clears the stolen voice's old mapping. -/
theorem steal_leaves_stale_mapping :
    c5AfterSteal.note_to_voice 60 = Option.some 0 ∧
    c5AfterSteal.note_to_voice 61 = Option.some 0 ∧
    c5AfterSteal.voices.map (fun v => (v.midi_note, v.state))
      = [(61, VoiceState.attack)] := by
  refine ⟨rfl, rfl, rfl⟩

/-! ### C8: silence on mute / uninitialized -/

/-- C8: a muted synth, an uninitialized synth, or a null node pointer all
render exact zeros on both channels; an uninitialized voice pool renders
exact zeros as well. -/
theorem render_silence_on_mute_or_uninit (synth : AudioSynth)
    (node : Option ModalNode) (num_frames : ℕ) (va : VoiceAllocator) :
    (synth.params.muted = true ∨ synth.initialized = false ∨
        node = Option.none →
      (audio_synth_render synth node num_frames).2.1
          = List.replicate num_frames 0 ∧
      (audio_synth_render synth node num_frames).2.2
          = List.replicate num_frames 0) ∧
    (va.initialized = false →
      (va_renderAudio va num_frames).2.1 = List.replicate num_frames 0 ∧
      (va_renderAudio va num_frames).2.2 = List.replicate num_frames 0) := by
  constructor
  · intro h
    cases hinit : synth.initialized with
    | false => simp [audio_synth_render, hinit]
    | true =>
      cases node with
      | none => simp [audio_synth_render, hinit]
      | some nd =>
        have hmut : synth.params.muted = true := by
          rcases h with h | h | h
          · exact h
          · rw [hinit] at h; cases h
          · cases h
        simp [audio_synth_render, hinit, hmut]
  · intro h
    simp [va_renderAudio, h]

/-- A concrete muted synth for the C8 witness. -/
def c8Synth : AudioSynth :=
  { audio_synth_init 48000 with
    params := { (audio_synth_init 48000).params with muted := true } }

/-- Witness for C8 at a concrete muted synth and a fresh (uninitialized)
pool. -/
theorem render_silence_witness :
    (audio_synth_render c8Synth Option.none 3).2.1 = List.replicate 3 0 ∧
    (va_renderAudio (va_new 2 (fun _ _ => (1/2, 1/2))) 3).2.1
      = List.replicate 3 0 :=
  ⟨((render_silence_on_mute_or_uninit c8Synth Option.none 3
      (va_new 2 (fun _ _ => (1/2, 1/2)))).1 (Or.inl rfl)).1,
   ((render_silence_on_mute_or_uninit c8Synth Option.none 3
      (va_new 2 (fun _ _ => (1/2, 1/2)))).2 rfl).1⟩

/-! ### C7: the rendered mix is not confined to [-1, 1] -/

/-- Counterexample node: all four modes active with amplitude `i` (unit
magnitude, phase π/2) and unit weight, zero frequency. -/
noncomputable def c7Node : ModalNode :=
  { node_id := 0
    personality := NodePersonality.resonator
    modes := fun _ =>
      { a := Complex.I
        a_dot := 0
        params := { omega := 0, gamma := 1, weight := 1, active := true } }
    excitation := { strength := 0, duration_ms := 0, elapsed_ms := 0
                    phase_hint := 0, active := false }
    coupling_strength := 3/10
    carrier_freq_hz := 440
    audio_gain := 7/10
    step_count := 0
    running := true }

/-- Counterexample synth: initialized, unmuted, unit gains, smoothed
amplitudes already at 1. -/
noncomputable def c7Synth : AudioSynth :=
  { params :=
      { sample_rate := 48000
        phase_accumulator := fun _ => 0
        mode_gains := fun _ => 1
        master_gain := 1
        muted := false }
    amplitude_smooth := fun _ => 1
    initialized := true }

lemma fast_sin_pi_div_two_gt : (9/10 : ℝ) < fast_sin (Real.pi / 2) := by
  have hpi1 : (3.141592 : ℝ) < Real.pi := Real.pi_gt_d6
  have hpi2 : Real.pi < 3.15 := Real.pi_lt_d2
  have hwrap : wrapToPi (Real.pi / 2) = Real.pi / 2 := by
    unfold wrapToPi
    rw [if_neg (by linarith), if_neg (by linarith)]
  unfold fast_sin
  rw [hwrap]
  have hx1 : (1.570796 : ℝ) < Real.pi / 2 := by linarith
  have hx2 : Real.pi / 2 < 1.575 := by linarith
  have hx0 : (0 : ℝ) ≤ Real.pi / 2 := by linarith
  have h3 : (Real.pi / 2) ^ 3 < 1.575 ^ 3 :=
    pow_lt_pow_left₀ hx2 hx0 (by norm_num)
  have h3' : (Real.pi / 2) ^ 3 < 3.906984375 := by
    calc (Real.pi / 2) ^ 3 < 1.575 ^ 3 := h3
    _ = 3.906984375 := by norm_num
  have h5 : (0 : ℝ) ≤ (Real.pi / 2) ^ 5 := by positivity
  linarith

/-- One counterexample mode step: with smoothed amplitude 1 and zero phase
accumulator, the contribution is exactly `0.7 · fast_sin(π/2)`. -/
lemma c7_modeStep (st : (Fin 4 → ℝ) × (Fin 4 → ℕ) × ℝ) (k : Fin 4)
    (hs : st.1 k = 1) (ha : st.2.1 k = 0) :
    renderModeStep c7Node c7Synth.params st k
      = (Function.update st.1 k 1, Function.update st.2.1 k 0,
         st.2.2 + (7/10) * fast_sin (Real.pi / 2)) := by
  have habs : Complex.abs ((c7Node.modes k).a) = 1 := by
    simp [c7Node, Complex.abs_I]
  have harg : Complex.arg ((c7Node.modes k).a) = Real.pi / 2 := by
    simp [c7Node, Complex.arg_I]
  simp only [renderModeStep, c7Node, c7Synth]
  rw [hs, ha]
  norm_num [Complex.abs_I, Complex.arg_I]

/-- The single rendered frame of the counterexample state. -/
lemma c7_render_eval :
    (audio_synth_render c7Synth (Option.some c7Node) 1).2.1
      = [0 + (7/10) * fast_sin (Real.pi / 2) + (7/10) * fast_sin (Real.pi / 2)
          + (7/10) * fast_sin (Real.pi / 2) + (7/10) * fast_sin (Real.pi / 2)] := by
  have hrender : (audio_synth_render c7Synth (Option.some c7Node) 1).2.1
      = [((List.finRange 4).foldl (renderModeStep c7Node c7Synth.params)
          (c7Synth.amplitude_smooth, c7Synth.params.phase_accumulator,
            0)).2.2] := rfl
  rw [hrender]
  rw [show (List.finRange 4) = [0, 1, 2, 3] from by decide]
  simp only [List.foldl_cons, List.foldl_nil]
  rw [c7_modeStep _ 0 rfl rfl]
  rw [c7_modeStep _ 1 (by simp [Function.update_apply, c7Synth])
    (by simp [Function.update_apply, c7Synth])]
  rw [c7_modeStep _ 2 (by simp [Function.update_apply, c7Synth])
    (by simp [Function.update_apply, c7Synth])]
  rw [c7_modeStep _ 3 (by simp [Function.update_apply, c7Synth])
    (by simp [Function.update_apply, c7Synth])]

/-- Counterexample for C7: the rendered output is NOT always within
[-1, 1] — at the counterexample state the single rendered sample of the
left channel exceeds 1 (four active modes each contribute ≈ 0.7, and the
mode sum is never clipped). -/
theorem render_output_exceeds_pcm_range :
    ¬(∀ x ∈ (audio_synth_render c7Synth (Option.some c7Node) 1).2.1,
        -1 ≤ x ∧ x ≤ 1) := by
  intro h
  have hmem : (0 + (7/10) * fast_sin (Real.pi / 2)
      + (7/10) * fast_sin (Real.pi / 2) + (7/10) * fast_sin (Real.pi / 2)
      + (7/10) * fast_sin (Real.pi / 2))
      ∈ (audio_synth_render c7Synth (Option.some c7Node) 1).2.1 := by
    rw [c7_render_eval]
    exact List.mem_singleton.mpr rfl
  have hb := (h _ hmem).2
  have hgt := fast_sin_pi_div_two_gt
  linarith

/-- C7 amended: both channels carry the identical mono mix; an inactive
mode leaves the per-sample state untouched, and an active mode contributes
exactly `amp · fastSin(phase)` with the clipped amplitude factor
`amp ∈ [0, 0.7]` — but the mode/voice sums are not clipped, so the total
output is not guaranteed to stay within [-1, 1] (see the counterexample). -/
theorem render_channels_equal_and_mode_clip (synth : AudioSynth)
    (node : Option ModalNode) (frames : ℕ) (nd : ModalNode)
    (p : SynthParams) (st : (Fin 4 → ℝ) × (Fin 4 → ℕ) × ℝ) (k : Fin 4)
    (hsm : 0 ≤ st.1 k) (hw : 0 ≤ (nd.modes k).params.weight)
    (hg : 0 ≤ (p.mode_gains k : ℝ)) (hmg : 0 ≤ (p.master_gain : ℝ)) :
    (audio_synth_render synth node frames).2.1
      = (audio_synth_render synth node frames).2.2 ∧
    ((nd.modes k).params.active = false → renderModeStep nd p st k = st) ∧
    ((nd.modes k).params.active = true →
      ∃ (smooth' : Fin 4 → ℝ) (accs' : Fin 4 → ℕ) (amp phase : ℝ),
        renderModeStep nd p st k
          = (smooth', accs', st.2.2 + amp * fast_sin phase) ∧
        0 ≤ amp ∧ amp ≤ 7/10) := by
  refine ⟨?_, ?_, ?_⟩
  · unfold audio_synth_render
    cases hinit : synth.initialized with
    | false => rfl
    | true =>
      cases node with
      | none => rfl
      | some nd' =>
        cases hmut : synth.params.muted with
        | false => simp
        | true => simp
  · intro hinact
    simp [renderModeStep, hinact]
  · intro hact
    have hraw : 0 ≤ Complex.abs ((nd.modes k).a) * (nd.modes k).params.weight :=
      mul_nonneg (Complex.abs.nonneg _) hw
    have hsm' : 0 ≤ st.1 k + (12/100 : ℝ)
        * (Complex.abs ((nd.modes k).a) * (nd.modes k).params.weight
          - st.1 k) := by nlinarith
    have hamp0 : 0 ≤ (st.1 k + (12/100 : ℝ)
        * (Complex.abs ((nd.modes k).a) * (nd.modes k).params.weight
          - st.1 k)) * (p.mode_gains k : ℝ) * (p.master_gain : ℝ)
        * (7/10 : ℝ) :=
      mul_nonneg (mul_nonneg (mul_nonneg hsm' hg) hmg) (by norm_num)
    have hne : ¬((nd.modes k).params.active = false) := by
      rw [hact]
      simp
    have hstep : renderModeStep nd p st k
        = (Function.update st.1 k
            (st.1 k + (12/100 : ℝ)
              * (Complex.abs ((nd.modes k).a) * (nd.modes k).params.weight
                - st.1 k)),
          Function.update st.2.1 k
            ((st.2.1 k + (⌊2 * Real.pi
                * ((nd.modes k).params.omega / (2 * Real.pi))
                / (p.sample_rate : ℝ) * 4294967296 / (2 * Real.pi)⌋).toNat)
              % 4294967296),
          st.2.2
            + (if (st.1 k + (12/100 : ℝ)
                  * (Complex.abs ((nd.modes k).a) * (nd.modes k).params.weight
                    - st.1 k)) * (p.mode_gains k : ℝ) * (p.master_gain : ℝ)
                  * (7/10 : ℝ) > (7/10 : ℝ)
                then (7/10 : ℝ)
                else (st.1 k + (12/100 : ℝ)
                  * (Complex.abs ((nd.modes k).a) * (nd.modes k).params.weight
                    - st.1 k)) * (p.mode_gains k : ℝ) * (p.master_gain : ℝ)
                  * (7/10 : ℝ))
              * fast_sin (((st.2.1 k : ℝ) / 4294967296) * (2 * Real.pi)
                  + Complex.arg ((nd.modes k).a))) := by
      unfold renderModeStep
      rw [if_neg hne]
    refine ⟨_, _, _, _, hstep, ?_, ?_⟩
    · split
      · norm_num
      · exact hamp0
    · split
      · exact le_refl _
      · next hnot => exact le_of_not_lt hnot

/-- Witness for the C7 amended theorem at a concrete state. -/
theorem render_channels_equal_and_mode_clip_witness :
    (audio_synth_render c7Synth (Option.some c7Node) 2).2.1
      = (audio_synth_render c7Synth (Option.some c7Node) 2).2.2 :=
  (render_channels_equal_and_mode_clip c7Synth (Option.some c7Node) 2 c7Node
    c7Synth.params ((fun _ => 1), (fun _ => 0), 0) 0
    (by norm_num) (by norm_num [c7Node]) (by norm_num [c7Synth])
    (by norm_num [c7Synth])).1

/-! ## protocol_crc32 and the chunked configuration transfer (C9)

From src/esp32/firmware/main/network/protocol.c (table-driven CRC32),
config/hub_controller.c (sender-side chunking into 200-byte pieces) and
main.c (receiver-side bitmap reassembly and checksum verification).
Bytes are naturals below 256. -/

set_option maxRecDepth 8192

/-- The 256-entry table `crc32_table` of protocol.c. -/
def crc32_table : List ℕ := [
  0x00000000, 0x77073096, 0xEE0E612C, 0x990951BA, 0x076DC419, 0x706AF48F,
  0xE963A535, 0x9E6495A3, 0x0EDB8832, 0x79DCB8A4, 0xE0D5E91E, 0x97D2D988,
  0x09B64C2B, 0x7EB17CBD, 0xE7B82D07, 0x90BF1D91, 0x1DB71064, 0x6AB020F2,
  0xF3B97148, 0x84BE41DE, 0x1ADAD47D, 0x6DDDE4EB, 0xF4D4B551, 0x83D385C7,
  0x136C9856, 0x646BA8C0, 0xFD62F97A, 0x8A65C9EC, 0x14015C4F, 0x63066CD9,
  0xFA0F3D63, 0x8D080DF5, 0x3B6E20C8, 0x4C69105E, 0xD56041E4, 0xA2677172,
  0x3C03E4D1, 0x4B04D447, 0xD20D85FD, 0xA50AB56B, 0x35B5A8FA, 0x42B2986C,
  0xDBBBC9D6, 0xACBCF940, 0x32D86CE3, 0x45DF5C75, 0xDCD60DCF, 0xABD13D59,
  0x26D930AC, 0x51DE003A, 0xC8D75180, 0xBFD06116, 0x21B4F4B5, 0x56B3C423,
  0xCFBA9599, 0xB8BDA50F, 0x2802B89E, 0x5F058808, 0xC60CD9B2, 0xB10BE924,
  0x2F6F7C87, 0x58684C11, 0xC1611DAB, 0xB6662D3D, 0x76DC4190, 0x01DB7106,
  0x98D220BC, 0xEFD5102A, 0x71B18589, 0x06B6B51F, 0x9FBFE4A5, 0xE8B8D433,
  0x7807C9A2, 0x0F00F934, 0x9609A88E, 0xE10E9818, 0x7F6A0DBB, 0x086D3D2D,
  0x91646C97, 0xE6635C01, 0x6B6B51F4, 0x1C6C6162, 0x856530D8, 0xF262004E,
  0x6C0695ED, 0x1B01A57B, 0x8208F4C1, 0xF50FC457, 0x65B0D9C6, 0x12B7E950,
  0x8BBEB8EA, 0xFCB9887C, 0x62DD1DDF, 0x15DA2D49, 0x8CD37CF3, 0xFBD44C65,
  0x4DB26158, 0x3AB551CE, 0xA3BC0074, 0xD4BB30E2, 0x4ADFA541, 0x3DD895D7,
  0xA4D1C46D, 0xD3D6F4FB, 0x4369E96A, 0x346ED9FC, 0xAD678846, 0xDA60B8D0,
  0x44042D73, 0x33031DE5, 0xAA0A4C5F, 0xDD0D7CC9, 0x5005713C, 0x270241AA,
  0xBE0B1010, 0xC90C2086, 0x5768B525, 0x206F85B3, 0xB966D409, 0xCE61E49F,
  0x5EDEF90E, 0x29D9C998, 0xB0D09822, 0xC7D7A8B4, 0x59B33D17, 0x2EB40D81,
  0xB7BD5C3B, 0xC0BA6CAD, 0xEDB88320, 0x9ABFB3B6, 0x03B6E20C, 0x74B1D29A,
  0xEAD54739, 0x9DD277AF, 0x04DB2615, 0x73DC1683, 0xE3630B12, 0x94643B84,
  0x0D6D6A3E, 0x7A6A5AA8, 0xE40ECF0B, 0x9309FF9D, 0x0A00AE27, 0x7D079EB1,
  0xF00F9344, 0x8708A3D2, 0x1E01F268, 0x6906C2FE, 0xF762575D, 0x806567CB,
  0x196C3671, 0x6E6B06E7, 0xFED41B76, 0x89D32BE0, 0x10DA7A5A, 0x67DD4ACC,
  0xF9B9DF6F, 0x8EBEEFF9, 0x17B7BE43, 0x60B08ED5, 0xD6D6A3E8, 0xA1D1937E,
  0x38D8C2C4, 0x4FDFF252, 0xD1BB67F1, 0xA6BC5767, 0x3FB506DD, 0x48B2364B,
  0xD80D2BDA, 0xAF0A1B4C, 0x36034AF6, 0x41047A60, 0xDF60EFC3, 0xA867DF55,
  0x316E8EEF, 0x4669BE79, 0xCB61B38C, 0xBC66831A, 0x256FD2A0, 0x5268E236,
  0xCC0C7795, 0xBB0B4703, 0x220216B9, 0x5505262F, 0xC5BA3BBE, 0xB2BD0B28,
  0x2BB45A92, 0x5CB36A04, 0xC2D7FFA7, 0xB5D0CF31, 0x2CD99E8B, 0x5BDEAE1D,
  0x9B64C2B0, 0xEC63F226, 0x756AA39C, 0x026D930A, 0x9C0906A9, 0xEB0E363F,
  0x72076785, 0x05005713, 0x95BF4A82, 0xE2B87A14, 0x7BB12BAE, 0x0CB61B38,
  0x92D28E9B, 0xE5D5BE0D, 0x7CDCEFB7, 0x0BDBDF21, 0x86D3D2D4, 0xF1D4E242,
  0x68DDB3F8, 0x1FDA836E, 0x81BE16CD, 0xF6B9265B, 0x6FB077E1, 0x18B74777,
  0x88085AE6, 0xFF0F6A70, 0x66063BCA, 0x11010B5C, 0x8F659EFF, 0xF862AE69,
  0x616BFFD3, 0x166CCF45, 0xA00AE278, 0xD70DD2EE, 0x4E048354, 0x3903B3C2,
  0xA7672661, 0xD06016F7, 0x4969474D, 0x3E6E77DB, 0xAED16A4A, 0xD9D65ADC,
  0x40DF0B66, 0x37D83BF0, 0xA9BCAE53, 0xDEBB9EC5, 0x47B2CF7F, 0x30B5FFE9,
  0xBDBDF21C, 0xCABAC28A, 0x53B39330, 0x24B4A3A6, 0xBAD03605, 0xCDD70693,
  0x54DE5729, 0x23D967BF, 0xB3667A2E, 0xC4614AB8, 0x5D681B02, 0x2A6F2B94,
  0xB40BBE37, 0xC30C8EA1, 0x5A05DF1B, 0x2D02EF8D]

/-- One byte of `protocol_crc32`'s loop:
`crc = (crc >> 8) ^ crc32_table[(crc ^ byte) & 0xFF]`. -/
def crc32_update (crc b : ℕ) : ℕ :=
  (crc >>> 8) ^^^ crc32_table.getD ((crc ^^^ b) &&& 0xFF) 0

/-- `protocol_crc32`: initial value `0xFFFFFFFF`, byte loop, final
complement (`~` on `uint32_t` is xor with `0xFFFFFFFF`). -/
def protocol_crc32 (data : List ℕ) : ℕ :=
  (data.foldl crc32_update 0xFFFFFFFF) ^^^ 0xFFFFFFFF

lemma crc32_table_length : crc32_table.length = 256 := by decide

lemma crc32_table_lt : ∀ x ∈ crc32_table, x < 2 ^ 32 := by decide

/-- The top bytes of the 256 table entries are pairwise distinct. -/
lemma crc32_table_tops_nodup :
    (crc32_table.map (fun x => x >>> 24)).Nodup := by decide

lemma crc32_tableD_lt (i : ℕ) : crc32_table.getD i 0 < 2 ^ 32 := by
  by_cases h : i < crc32_table.length
  · rw [List.getD_eq_getElem?_getD, List.getElem?_eq_getElem h]
    exact crc32_table_lt _ (List.getElem_mem h)
  · rw [List.getD_eq_getElem?_getD, List.getElem?_eq_none (le_of_not_lt h)]
    norm_num

lemma crc32_table_top_inj {i j : ℕ} (hi : i < 256) (hj : j < 256)
    (h : crc32_table.getD i 0 >>> 24 = crc32_table.getD j 0 >>> 24) :
    i = j := by
  have hi' : i < crc32_table.length := by rw [crc32_table_length]; exact hi
  have hj' : j < crc32_table.length := by rw [crc32_table_length]; exact hj
  have hgi : crc32_table.getD i 0 = crc32_table[i] := by
    rw [List.getD_eq_getElem?_getD, List.getElem?_eq_getElem hi']
    rfl
  have hgj : crc32_table.getD j 0 = crc32_table[j] := by
    rw [List.getD_eq_getElem?_getD, List.getElem?_eq_getElem hj']
    rfl
  have hmi : i < (crc32_table.map (fun x => x >>> 24)).length := by
    simpa using hi'
  have hmj : j < (crc32_table.map (fun x => x >>> 24)).length := by
    simpa using hj'
  have hmap : (crc32_table.map (fun x => x >>> 24))[i]
      = (crc32_table.map (fun x => x >>> 24))[j] := by
    rw [List.getElem_map, List.getElem_map]
    rw [hgi, hgj] at h
    exact h
  exact (crc32_table_tops_nodup.getElem_inj_iff).mp hmap

lemma shiftRight_xor_distrib (a b n : ℕ) :
    (a ^^^ b) >>> n = (a >>> n) ^^^ (b >>> n) := by
  apply Nat.eq_of_testBit_eq
  intro i
  simp [Nat.testBit_shiftRight, Nat.testBit_xor]

/-- The top byte of the updated CRC is the top byte of the table entry that
was xored in (the shifted previous CRC contributes nothing there). -/
lemma crc32_update_shiftRight_24 {c : ℕ} (hc : c < 2 ^ 32) (b : ℕ) :
    crc32_update c b >>> 24
      = crc32_table.getD ((c ^^^ b) &&& 0xFF) 0 >>> 24 := by
  unfold crc32_update
  rw [shiftRight_xor_distrib]
  have h1 : c >>> 8 >>> 24 = 0 := by
    rw [← Nat.shiftRight_add, Nat.shiftRight_eq_div_pow]
    have he : (2 : ℕ) ^ (8 + 24) = 2 ^ 32 := by norm_num
    rw [he]
    exact Nat.div_eq_of_lt hc
  rw [h1, Nat.zero_xor]

lemma and_255_eq_mod (x : ℕ) : x &&& 0xFF = x % 256 := by
  have h : (0xFF : ℕ) = 2 ^ 8 - 1 := by norm_num
  rw [h, Nat.and_pow_two_sub_one_eq_mod]

lemma and_255_lt (x : ℕ) : x &&& 0xFF < 256 :=
  lt_of_le_of_lt Nat.and_le_right (by norm_num)

/-- The table index consumed by two colliding updates is the same. -/
lemma crc32_update_idx_eq {c₁ c₂ b₁ b₂ : ℕ} (h₁ : c₁ < 2 ^ 32)
    (h₂ : c₂ < 2 ^ 32)
    (h : crc32_update c₁ b₁ = crc32_update c₂ b₂) :
    (c₁ ^^^ b₁) &&& 0xFF = (c₂ ^^^ b₂) &&& 0xFF := by
  apply crc32_table_top_inj (and_255_lt _) (and_255_lt _)
  calc crc32_table.getD ((c₁ ^^^ b₁) &&& 0xFF) 0 >>> 24
      = crc32_update c₁ b₁ >>> 24 := (crc32_update_shiftRight_24 h₁ b₁).symm
    _ = crc32_update c₂ b₂ >>> 24 := by rw [h]
    _ = crc32_table.getD ((c₂ ^^^ b₂) &&& 0xFF) 0 >>> 24 :=
        crc32_update_shiftRight_24 h₂ b₂

/-- `crc32_update` is injective in the running CRC. -/
lemma crc32_update_inj_left {c₁ c₂ : ℕ} (h₁ : c₁ < 2 ^ 32)
    (h₂ : c₂ < 2 ^ 32) (b : ℕ)
    (h : crc32_update c₁ b = crc32_update c₂ b) : c₁ = c₂ := by
  have hidx := crc32_update_idx_eq h₁ h₂ h
  have hlow : c₁ % 256 = c₂ % 256 := by
    have h' := hidx
    rw [Nat.and_xor_distrib_right, Nat.and_xor_distrib_right] at h'
    have h'' := congrArg (fun x => x ^^^ (b &&& 0xFF)) h'
    simp only [Nat.xor_cancel_right] at h''
    rw [and_255_eq_mod, and_255_eq_mod] at h''
    exact h''
  have hhigh : c₁ >>> 8 = c₂ >>> 8 := by
    have htab : crc32_table.getD ((c₂ ^^^ b) &&& 0xFF) 0
        = crc32_table.getD ((c₁ ^^^ b) &&& 0xFF) 0 := by rw [hidx]
    unfold crc32_update at h
    rw [htab] at h
    have h' := congrArg
      (fun x => x ^^^ crc32_table.getD ((c₁ ^^^ b) &&& 0xFF) 0) h
    simp only [Nat.xor_cancel_right] at h'
    exact h'
  rw [Nat.shiftRight_eq_div_pow] at hhigh
  have h256 : (2 : ℕ) ^ 8 = 256 := by norm_num
  rw [h256] at hhigh
  omega

/-- `crc32_update` is injective in the data byte (bytes below 256). -/
lemma crc32_update_inj_byte {c b₁ b₂ : ℕ} (hc : c < 2 ^ 32)
    (hb₁ : b₁ < 256) (hb₂ : b₂ < 256)
    (h : crc32_update c b₁ = crc32_update c b₂) : b₁ = b₂ := by
  have hidx := crc32_update_idx_eq hc hc h
  rw [Nat.and_xor_distrib_right, Nat.and_xor_distrib_right] at hidx
  have h' := congrArg (fun x => (c &&& 0xFF) ^^^ x) hidx
  simp only [Nat.xor_cancel_left] at h'
  rw [and_255_eq_mod, and_255_eq_mod] at h'
  omega

lemma crc32_update_lt {c : ℕ} (hc : c < 2 ^ 32) (b : ℕ) :
    crc32_update c b < 2 ^ 32 := by
  have hle : c >>> 8 ≤ c := by
    rw [Nat.shiftRight_eq_div_pow]
    exact Nat.div_le_self _ _
  exact Nat.xor_lt_two_pow (lt_of_le_of_lt hle hc) (crc32_tableD_lt _)

lemma foldl_crc32_lt (l : List ℕ) :
    ∀ c, c < 2 ^ 32 → l.foldl crc32_update c < 2 ^ 32 := by
  induction l with
  | nil => intro c hc; simpa using hc
  | cons x xs ih =>
    intro c hc
    simpa using ih (crc32_update c x) (crc32_update_lt hc x)

lemma foldl_crc32_inj (l : List ℕ) :
    ∀ c₁ c₂, c₁ < 2 ^ 32 → c₂ < 2 ^ 32 →
      l.foldl crc32_update c₁ = l.foldl crc32_update c₂ → c₁ = c₂ := by
  induction l with
  | nil => intro c₁ c₂ _ _ h; simpa using h
  | cons x xs ih =>
    intro c₁ c₂ h₁ h₂ h
    simp only [List.foldl_cons] at h
    exact crc32_update_inj_left h₁ h₂ x
      (ih _ _ (crc32_update_lt h₁ x) (crc32_update_lt h₂ x) h)

/-- CRC32 detects every single-byte substitution. -/
lemma protocol_crc32_single_byte_ne (pre suf : List ℕ) {b b2 : ℕ}
    (hb : b < 256) (hb2 : b2 < 256) (hne : b ≠ b2) :
    protocol_crc32 (pre ++ b :: suf) ≠ protocol_crc32 (pre ++ b2 :: suf) := by
  intro h
  unfold protocol_crc32 at h
  rw [List.foldl_append, List.foldl_append, List.foldl_cons,
    List.foldl_cons] at h
  have hc : pre.foldl crc32_update 0xFFFFFFFF < 2 ^ 32 :=
    foldl_crc32_lt pre _ (by norm_num)
  have h1 := congrArg (fun x => x ^^^ 0xFFFFFFFF) h
  simp only [Nat.xor_cancel_right] at h1
  have h2 := foldl_crc32_inj suf _ _ (crc32_update_lt hc b)
    (crc32_update_lt hc b2) h1
  exact hne (crc32_update_inj_byte hc hb hb2 h2)



/-- Both sender (hub_controller.c, `chunk_size = 200`) and receiver
(main.c, `offset = chunk_idx * 200`) use 200-byte chunks. -/
def chunkSize : ℕ := 200

/-- `⌈B/200⌉`, computed as `(config_size + chunk_size - 1) / chunk_size`. -/
def numChunks (B : ℕ) : ℕ := (B + chunkSize - 1) / chunkSize

/-- The chunk sequence sent by `hub_send_config`: chunk `i` carries
`min(200, B - i*200)` bytes starting at offset `i*200`. -/
def sendChunks (data : List ℕ) : List (ℕ × List ℕ) :=
  (List.range (numChunks data.length)).map
    (fun i => (i, (data.drop (i * chunkSize)).take chunkSize))

/-- Receiver state `g_config_rx` of main.c (4096-byte buffer, per-chunk
bitmap). -/
structure ConfigRx where
  receiving : Bool
  total_size : ℕ
  num_chunks : ℕ
  expected_checksum : ℕ
  chunks_received : ℕ
  chunk_bitmap : ℕ → Bool
  buffer : ℕ → ℕ

/-- `MSG_CFG_BEGIN` handling: zero the state and arm reception. -/
def cfgBegin (total_size num_chunks checksum : ℕ) : ConfigRx :=
  { receiving := true
    total_size := total_size
    num_chunks := num_chunks
    expected_checksum := checksum
    chunks_received := 0
    chunk_bitmap := fun _ => false
    buffer := fun _ => 0 }

/-- `memcpy(buffer + offset, chunk_data, chunk_size)`. -/
def writeChunk (buffer : ℕ → ℕ) (offset : ℕ) (bytes : List ℕ) : ℕ → ℕ :=
  fun a =>
    if offset ≤ a ∧ a < offset + bytes.length then bytes.getD (a - offset) 0
    else buffer a

/-- `MSG_CFG_CHUNK` handling: ignored when not receiving or when the chunk
bit is already set; copied when `offset + size` fits the 4096-byte buffer;
then the bit is set and the chunk counted. -/
def cfgChunk (rx : ConfigRx) (chunk_idx : ℕ) (bytes : List ℕ) : ConfigRx :=
  if rx.receiving = false then rx
  else if rx.chunk_bitmap chunk_idx then rx
  else if chunk_idx * 200 + bytes.length ≤ 4096 then
    { rx with
      buffer := writeChunk rx.buffer (chunk_idx * 200) bytes
      chunk_bitmap := fun c => if c = chunk_idx then true else rx.chunk_bitmap c
      chunks_received := rx.chunks_received + 1 }
  else rx

inductive CfgResult
  | accepted | nackMissing | nackChecksum | ignored
deriving DecidableEq

/-- The reassembled bytes `buffer[0 .. total_size)`. -/
def readBuffer (rx : ConfigRx) : List ℕ :=
  (List.range rx.total_size).map rx.buffer

/-- `MSG_CFG_END` handling: require every chunk, then a matching CRC32 over
the reassembled bytes; otherwise reject with a negative acknowledgment
(status 1 = missing chunks, 2 = checksum mismatch) and do not apply the
configuration. -/
def cfgEnd (rx : ConfigRx) : ConfigRx × CfgResult :=
  if rx.receiving = false then (rx, CfgResult.ignored)
  else if rx.chunks_received ≠ rx.num_chunks then
    ({ rx with receiving := false }, CfgResult.nackMissing)
  else if protocol_crc32 (readBuffer rx) ≠ rx.expected_checksum then
    ({ rx with receiving := false }, CfgResult.nackChecksum)
  else (rx, CfgResult.accepted)

/-- Receiver state after `CFG_BEGIN` and the first `k` chunks in order. -/
def rxAfter (data : List ℕ) (k : ℕ) : ConfigRx :=
  ((List.range k).map
      (fun i => (i, (data.drop (i * chunkSize)).take chunkSize))).foldl
    (fun r c => cfgChunk r c.1 c.2)
    (cfgBegin data.length (numChunks data.length) (protocol_crc32 data))

/-- Receiver state after `CFG_BEGIN` plus every chunk of `data`. -/
def receiveAll (data : List ℕ) : ConfigRx := rxAfter data (numChunks data.length)

lemma sendChunks_foldl (data : List ℕ) :
    (sendChunks data).foldl (fun r c => cfgChunk r c.1 c.2)
      (cfgBegin data.length (numChunks data.length) (protocol_crc32 data))
      = receiveAll data := rfl

lemma take_drop_getD (l : List ℕ) (o j n : ℕ) (hj : j < n) :
    ((l.drop o).take n).getD j 0 = l.getD (o + j) 0 := by
  rw [List.getD_eq_getElem?_getD, List.getD_eq_getElem?_getD]
  rw [List.getElem?_take, if_pos hj, List.getElem?_drop]

lemma rxAfter_invariant (data : List ℕ) (hlen : data.length ≤ 4096) :
    ∀ k, k ≤ numChunks data.length →
      (rxAfter data k).receiving = true ∧
      (rxAfter data k).total_size = data.length ∧
      (rxAfter data k).num_chunks = numChunks data.length ∧
      (rxAfter data k).expected_checksum = protocol_crc32 data ∧
      (rxAfter data k).chunks_received = k ∧
      (∀ c, (rxAfter data k).chunk_bitmap c = decide (c < k)) ∧
      (∀ a, a < min (k * chunkSize) data.length →
        (rxAfter data k).buffer a = data.getD a 0) := by
  intro k
  induction k with
  | zero =>
    intro _
    refine ⟨rfl, rfl, rfl, rfl, rfl, fun c => by simp [rxAfter, cfgBegin], ?_⟩
    intro a ha
    simp at ha
  | succ k ih =>
    intro hk1
    have hk : k ≤ numChunks data.length := Nat.le_of_succ_le hk1
    obtain ⟨hrecv, htot, hnum, hexp, hcnt, hbit, hbuf⟩ := ih hk
    have hstep : rxAfter data (k + 1)
        = cfgChunk (rxAfter data k) k ((data.drop (k * chunkSize)).take chunkSize) := by
      unfold rxAfter
      rw [List.range_succ, List.map_append, List.foldl_append]
      simp
    set B := data.length with hB
    have hkB : k * chunkSize < B := by
      have hnc : numChunks B = (B + 200 - 1) / 200 := rfl
      have : k < (B + 200 - 1) / 200 := by
        rw [← hnc]
        exact Nat.lt_of_succ_le hk1
      simp only [chunkSize]
      omega
    have hlenchunk : ((data.drop (k * chunkSize)).take chunkSize).length
        = min chunkSize (B - k * chunkSize) := by
      simp [List.length_take, List.length_drop]
    have hbound : k * 200 + ((data.drop (k * chunkSize)).take chunkSize).length
        ≤ 4096 := by
      rw [hlenchunk]
      simp only [chunkSize] at *
      omega
    have hbitk : (rxAfter data k).chunk_bitmap k = false := by
      rw [hbit k]
      simp
    rw [hstep]
    unfold cfgChunk
    rw [hrecv, hbitk]
    simp only [Bool.true_eq_false, Bool.false_eq_true, if_false, if_pos hbound]
    refine ⟨?_, ?_, ?_, ?_, ?_, ?_, ?_⟩
    · simp
    · simp [htot]
    · simp [hnum]
    · simp [hexp]
    · simp [hcnt]
    · intro c
      by_cases hc : c = k
      · subst hc
        simp
      · simp only [if_neg hc, hbit c]
        rw [decide_eq_decide.mpr (by omega : (c < k ↔ c < k + 1))]
    · intro a ha
      unfold writeChunk
      by_cases hin : k * 200 ≤ a ∧ a < k * 200 + ((data.drop (k * chunkSize)).take chunkSize).length
      · rw [if_pos hin]
        obtain ⟨hin1, hin2⟩ := hin
        rw [hlenchunk] at hin2
        have hj : a - k * chunkSize < chunkSize := by
          simp only [chunkSize] at *
          omega
        rw [show k * 200 = k * chunkSize from rfl]
        rw [take_drop_getD data (k * chunkSize) (a - k * chunkSize) chunkSize hj]
        congr 1
        simp only [chunkSize] at *
        omega
      · rw [if_neg hin]
        rw [hlenchunk] at hin
        apply hbuf
        simp only [chunkSize] at *
        omega

/-- The reassembled buffer equals the original data. -/
lemma receiveAll_readBuffer (data : List ℕ) (hlen : data.length ≤ 4096) :
    readBuffer (receiveAll data) = data := by
  obtain ⟨hrecv, htot, hnum, hexp, hcnt, hbit, hbuf⟩ :=
    rxAfter_invariant data hlen (numChunks data.length) le_rfl
  unfold readBuffer receiveAll
  rw [htot]
  apply List.ext_getElem
  · simp
  · intro i h1 h2
    have hi : i < data.length := by simpa using h2
    have hmin : i < min (numChunks data.length * chunkSize) data.length := by
      have : data.length ≤ numChunks data.length * chunkSize := by
        simp only [numChunks, chunkSize]
        omega
      omega
    have := hbuf i hmin
    simp only [receiveAll] at *
    rw [List.getElem_map, List.getElem_range, this,
      List.getD_eq_getElem?_getD, List.getElem?_eq_getElem hi]
    rfl

/-- C9: the chunked configuration transfer round-trips exactly, the CRC32
over the reassembled bytes matches and the transfer is accepted; any
single-byte corruption of the reassembled blob changes the CRC32, so
`CFG_END` verification fails and the transfer is rejected with a negative
acknowledgment (and not applied). -/
theorem config_chunked_roundtrip_and_crc (data : List ℕ)
    (hlen : data.length ≤ 4096) (hbytes : ∀ x ∈ data, x < 256) :
    (readBuffer (receiveAll data) = data ∧
      (cfgEnd (receiveAll data)).2 = CfgResult.accepted) ∧
    (∀ i b2, i < data.length → b2 < 256 → b2 ≠ data.getD i 0 →
      protocol_crc32 (data.set i b2) ≠ protocol_crc32 data ∧
      (cfgEnd { receiveAll data with
          buffer := Function.update (receiveAll data).buffer i b2 }).2
        = CfgResult.nackChecksum) := by
  obtain ⟨hrecv, htot, hnum, hexp, hcnt, hbit, hbuf⟩ :=
    rxAfter_invariant data hlen (numChunks data.length) le_rfl
  have hread := receiveAll_readBuffer data hlen
  have hcnteq : (receiveAll data).chunks_received = (receiveAll data).num_chunks := by
    simp only [receiveAll] at *
    rw [hcnt, hnum]
  constructor
  · refine ⟨hread, ?_⟩
    unfold cfgEnd
    rw [if_neg (by simp only [receiveAll] at *; rw [hrecv]; simp)]
    rw [if_neg (by rw [hcnteq]; simp)]
    rw [if_neg (by
      rw [hread]
      simp only [receiveAll] at *
      rw [hexp]
      simp)]
  · intro i b2 hi hb2 hne
    have hdecomp : data = data.take i ++ data[i] :: data.drop (i + 1) := by
      conv_lhs => rw [← List.take_append_drop i data]
      rw [List.drop_eq_getElem_cons hi]
    have hset : data.set i b2 = data.take i ++ b2 :: data.drop (i + 1) := by
      rw [List.set_eq_take_append_cons_drop, if_pos hi]
    have hbi : data[i] < 256 := hbytes _ (data.getElem_mem hi)
    have hgetd : data.getD i 0 = data[i] := by
      rw [List.getD_eq_getElem?_getD, List.getElem?_eq_getElem hi]
      rfl
    have hne2 : b2 ≠ data[i] := by
      rw [hgetd] at hne
      exact hne
    have hcrcne : protocol_crc32 (data.set i b2) ≠ protocol_crc32 data := by
      rw [hset]
      conv_rhs => rw [hdecomp]
      exact protocol_crc32_single_byte_ne (data.take i) (data.drop (i + 1))
        hb2 hbi hne2
    refine ⟨hcrcne, ?_⟩
    have hreadc : readBuffer { receiveAll data with
        buffer := Function.update (receiveAll data).buffer i b2 }
        = data.set i b2 := by
      unfold readBuffer
      simp only
      apply List.ext_getElem
      · simp only [receiveAll] at *
        simp [htot]
      · intro a h1 h2
        have haB : a < data.length := by
          simp only [receiveAll] at *
          simp [htot] at h1
          exact h1
        rw [List.getElem_map, List.getElem_range]
        by_cases hai : a = i
        · subst hai
          rw [Function.update_same, List.getElem_set_self]
        · rw [Function.update_noteq hai, List.getElem_set_ne (fun h => hai h.symm)]
          have hmin : a < min (numChunks data.length * chunkSize) data.length := by
            have : data.length ≤ numChunks data.length * chunkSize := by
              simp only [numChunks, chunkSize]
              omega
            omega
          have := hbuf a hmin
          simp only [receiveAll] at *
          rw [this, List.getD_eq_getElem?_getD, List.getElem?_eq_getElem haB]
          rfl
    unfold cfgEnd
    rw [if_neg (by simp only [receiveAll] at *; rw [hrecv]; simp)]
    rw [if_neg (by
      simp only
      rw [hcnteq]
      simp)]
    rw [if_pos (by
      rw [hreadc]
      simp only [receiveAll] at *
      rw [hexp]
      exact hcrcne)]

/-- Witness for C9 at a concrete three-byte blob with byte 0 corrupted. -/
theorem config_chunked_roundtrip_witness :
    readBuffer (receiveAll [1, 2, 3]) = [1, 2, 3] ∧
    protocol_crc32 ([1, 2, 3].set 0 7) ≠ protocol_crc32 [1, 2, 3] :=
  ⟨(config_chunked_roundtrip_and_crc [1, 2, 3] (by norm_num) (by decide)).1.1,
   ((config_chunked_roundtrip_and_crc [1, 2, 3] (by norm_num) (by decide)).2
     0 7 (by norm_num) (by norm_num) (by decide)).1⟩


end AudioSim
